import Mathlib

set_option maxRecDepth 8000

/-!
Shallow embedding of the provider-normalization / transport-resilience layer
of `src/client.js` (classes `CorsProxyManager`, `Client`, `PollinationsAI`,
`Together`, `HuggingFace`).  Network effects are modelled by explicit oracle
parameters (the outcome each `fetch` would produce), object mutation by
explicit state passing, and JavaScript values by an inductive `J` type with
JS truthiness.
-/
/-- Substring test, JS `String.prototype.includes`. -/
def containsSub (needle hay : List Char) : Bool :=
  hay.tails.any (fun t => needle.isPrefixOf t)

/-! ## CorsProxyManager and `Client._fetchWithProxyRotation` (src/client.js:4-100) -/
/-- The hex digit used by `encodeURIComponent` percent escapes (uppercase). -/
def hexDigit (n : Nat) : Char :=
  if n < 10 then Char.ofNat (48 + n) else Char.ofNat (55 + n)

/-- UTF-8 bytes of a code point, as produced when JS percent-encodes it. -/
def utf8Bytes (c : Char) : List Nat :=
  let n := c.toNat
  if n < 0x80 then [n]
  else if n < 0x800 then [0xC0 + n / 0x40, 0x80 + n % 0x40]
  else if n < 0x10000 then
    [0xE0 + n / 0x1000, 0x80 + (n / 0x40) % 0x40, 0x80 + n % 0x40]
  else
    [0xF0 + n / 0x40000, 0x80 + (n / 0x1000) % 0x40, 0x80 + (n / 0x40) % 0x40,
      0x80 + n % 0x40]

/-- `%XY` escape of one byte. -/
def percentByte (b : Nat) : List Char :=
  ['%', hexDigit (b / 16), hexDigit (b % 16)]

/-- Characters `encodeURIComponent` leaves unescaped. -/
def isUnreservedURI (c : Char) : Bool :=
  c.isAlpha || c.isDigit ||
    ['-', '_', '.', '!', '~', '*', Char.ofNat 39, '(', ')'].contains c

/-- JS `encodeURIComponent` on a character sequence. -/
def encodeURIComponentL (s : List Char) : List Char :=
  (s.map (fun c =>
    if isUnreservedURI c then [c] else (utf8Bytes c).map percentByte |>.flatten)).flatten

/-- One possible outcome of a `fetch` of a proxied URL: a network error, or a
response with its `ok` flag and optional `Content-Type` header. -/
inductive FetchOutcome where
  | netError
  | response (ok : Bool) (contentType : Option (List Char))

/-- `CorsProxyManager` (src/client.js:4-44): ordered proxy list plus cursor. -/
structure CorsProxyManager where
  proxies : List String
  currentIndex : Nat

/-- `getProxiedUrl` (src/client.js:32-35). -/
def getProxiedUrl (m : CorsProxyManager) (targetUrl : String) : String :=
  (m.proxies.getD m.currentIndex "") ++ ⟨encodeURIComponentL targetUrl.data⟩

/-- `rotateProxy` (src/client.js:40-43). -/
def rotateProxy (m : CorsProxyManager) : CorsProxyManager :=
  { m with currentIndex := (m.currentIndex + 1) % m.proxies.length }

/-- Whether one attempt of `_fetchWithProxyRotation` fails: a thrown network
error, `!response.ok`, or a present `Content-Type` not containing
`application/json` (src/client.js:85-92). -/
def attemptFailed : FetchOutcome → Bool
  | .netError => true
  | .response ok ct =>
    !ok ||
      (match ct with
       | some t => !containsSub "application/json".data t
       | none => false)

/-- The retry loop of `_fetchWithProxyRotation` (src/client.js:82-98):
`fuel` is the remaining number of attempts, `a` the attempt counter fed to
the world oracle.  Returns the successful outcome (if any), the manager
state after the call, and the list of cursor positions used, one per
attempt, in order. -/
def fetchRotGo (world : Nat → FetchOutcome) :
    Nat → Nat → CorsProxyManager → Option FetchOutcome × CorsProxyManager × List Nat
  | 0, _, m => (none, m, [])
  | fuel + 1, a, m =>
    let o := world a
    if attemptFailed o then
      let r := fetchRotGo world fuel (a + 1) (rotateProxy m)
      (r.1, r.2.1, m.currentIndex :: r.2.2)
    else (some o, m, [m.currentIndex])

/-- `_fetchWithProxyRotation` (src/client.js:80-100): at most
`proxies.length` attempts; `none` in the first component models the final
`throw` (ProxyExhausted). -/
def fetchWithProxyRotation (world : Nat → FetchOutcome) (m : CorsProxyManager) :
    Option FetchOutcome × CorsProxyManager × List Nat :=
  fetchRotGo world m.proxies.length 0 m

/-- The default proxy list of the `CorsProxyManager` constructor
(src/client.js:8-19). -/
def defaultCorsProxies : List String :=
  ["https://corsproxy.io/?",
   "https://api.allorigins.win/raw?url=",
   "https://cloudflare-cors-anywhere.queakchannel42.workers.dev/?",
   "https://proxy.cors.sh/",
   "https://cors-anywhere.herokuapp.com/",
   "https://thingproxy.freeboard.io/fetch/",
   "https://cors.bridged.cc/",
   "https://cors-proxy.htmldriven.com/?url=",
   "https://yacdn.org/proxy/",
   "https://api.codetabs.com/v1/proxy?quest="]

/-! ## JavaScript values

Chat delta events are parsed JSON, manipulated with JS member access,
truthiness and property assignment.  `J.undefined` models `undefined`. -/
inductive J where
  | undefined
  | null
  | bool (b : Bool)
  | num (n : Int)
  | str (s : String)
  | arr (elems : List J)
  | obj (fields : List (String × J))

/-- JS truthiness (`NaN` does not occur in this model). -/
def jTruthy : J → Bool
  | .undefined => false
  | .null => false
  | .bool b => b
  | .num n => n != 0
  | .str s => s != ""
  | .arr _ => true
  | .obj _ => true

/-- JS property read `v.k` (absent property or non-object reads as
`undefined`; optional chaining `?.` gives the same result here because a
read on `undefined`/`null` is only reached behind `?.` in the source). -/
def jGet (v : J) (k : String) : J :=
  match v with
  | .obj fields => (fields.lookup k).getD .undefined
  | _ => .undefined

/-- JS indexed read `v[i]` for a numeric literal index. -/
def jIndex (v : J) (i : Nat) : J :=
  match v with
  | .arr elems => (elems.getD i .undefined)
  | .obj fields => (fields.lookup (toString i)).getD .undefined
  | .str s => match s.data.getD i ' ' , s.data.length with
              | c, n => if i < n then .str ⟨[c]⟩ else .undefined
  | _ => .undefined

/-- Replace the first binding of `k` (or append one), JS property write on
an object. -/
def assocSet {β : Type} : List (String × β) → String → β → List (String × β)
  | [], k, x => [(k, x)]
  | (k', v') :: rest, k, x =>
    if k' = k then (k', x) :: rest else (k', v') :: assocSet rest k x

/-- Remove the bindings of `k`, JS `delete obj.k`. -/
def assocDelete {β : Type} (l : List (String × β)) (k : String) : List (String × β) :=
  l.filter (fun kv => kv.1 ≠ k)

/-- JS property write `v.k = x` (only reached on objects in the source). -/
def jSetField (v : J) (k : String) (x : J) : J :=
  match v with
  | .obj fields => .obj (assocSet fields k x)
  | w => w

/-- JS indexed write `v[i] = x` for a numeric index (only reached on arrays
in the source). -/
def jSetIndex (v : J) (i : Nat) (x : J) : J :=
  match v with
  | .arr elems => .arr (elems.set i x)
  | w => w

/-! ## StreamDecoder: `Client._streamCompletion` (src/client.js:172-207) -/
/-- `data.choices && data.choices[0]?.delta?.reasoning` check followed by
`data.choices[0].delta.reasoning_content = data.choices[0].delta.reasoning`
(src/client.js:194-196). -/
def addReasoning (data : J) : J :=
  let choices := jGet data "choices"
  let c0 := jIndex choices 0
  let delta := jGet c0 "delta"
  let reasoning := jGet delta "reasoning"
  if jTruthy choices && jTruthy reasoning then
    jSetField data "choices"
      (jSetIndex choices 0
        (jSetField c0 "delta" (jSetField delta "reasoning_content" reasoning)))
  else data

/-- `buffer.split('\n')` followed by `buffer = parts.pop()`
(src/client.js:187-188): the complete lines, and the trailing fragment that
becomes the new carry-over buffer. -/
def splitLines : List Char → List (List Char) × List Char
  | [] => ([], [])
  | c :: rest =>
    let r := splitLines rest
    if c = '\n' then ([] :: r.1, r.2)
    else
      match r.1 with
      | [] => ([], c :: r.2)
      | l :: ls => ((c :: l) :: ls, r.2)

/-- JS whitespace recognised by `String.prototype.trim` (the ASCII part;
the non-ASCII whitespace code points never share a line with `data: `). -/
def isJsWs (c : Char) : Bool :=
  [' ', '\t', '\n', '\r', Char.ofNat 11, Char.ofNat 12].contains c

/-- JS `line.trim()`. -/
def jsTrim (l : List Char) : List Char :=
  ((l.dropWhile isJsWs).reverse.dropWhile isJsWs).reverse

/-- Processing of one complete line in the stream loop
(src/client.js:189-202): skip blank lines and the `data: [DONE]` sentinel,
skip lines without the `data: ` marker, JSON-parse the payload (the opaque
platform `JSON.parse` is the oracle `parse`, `none` modelling a thrown
`SyntaxError` that the `catch` swallows), and apply the reasoning copy. -/
def lineEvent (parse : List Char → Option J) (line : List Char) : Option J :=
  if jsTrim line = [] ∨ line = "data: [DONE]".data then none
  else if "data: ".data.isPrefixOf line then
    match parse (line.drop 6) with
    | some data => some (addReasoning data)
    | none => none
  else none

/-- One iteration of the read loop (src/client.js:183-203): append the
decoded chunk to the carry-over buffer, split off the complete lines,
retain the trailing fragment, and yield the events of the complete lines. -/
def feedChunk (parse : List Char → Option J) (st : List J × List Char)
    (chunk : List Char) : List J × List Char :=
  let r := splitLines (st.2 ++ chunk)
  (st.1 ++ r.1.filterMap (lineEvent parse), r.2)

/-- The whole stream read as a sequence of decoded text chunks: the ordered
events yielded and the final (discarded) buffer. -/
def decodeChunks (parse : List Char → Option J) (chunks : List (List Char)) :
    List J × List Char :=
  chunks.foldl (feedChunk parse) ([], [])

/-! ## `PollinationsAI.models.list` (src/client.js:246-317) -/
/-- JS stringification when a value is used as a property key (the table
keys looked up in the source are always strings; the array case, which JS
would join element-wise, is abbreviated as it can never hit a key of the
modelled tables). -/
def jKeyStrS : J → String
  | .undefined => "undefined"
  | .null => "null"
  | .bool b => if b then "true" else "false"
  | .num n => toString n
  | .str s => s
  | .arr _ => ""
  | .obj _ => "[object Object]"

/-- `modelAliases` of `PollinationsAI` (src/client.js:254-275). -/
def pollinationsModelAliases : List (String × String) :=
  [("gpt-oss-120b", "gpt-oss"),
   ("gpt-4o-mini", "openai"),
   ("gpt-4.1-nano", "openai-fast"),
   ("gpt-4.1", "openai-large"),
   ("o4-mini", "openai-reasoning"),
   ("command-r-plus", "command-r"),
   ("gemini-2.5-flash", "gemini"),
   ("gemini-2.0-flash-thinking", "gemini-thinking"),
   ("qwen-2.5-coder-32b", "qwen-coder"),
   ("llama-3.3-70b", "llama"),
   ("llama-4-scout", "llamascout"),
   ("mistral-small-3.1-24b", "mistral"),
   ("deepseek-r1", "deepseek-reasoning"),
   ("phi-4", "phi"),
   ("deepseek-v3", "deepseek"),
   ("grok-3-mini-high", "grok"),
   ("gpt-4o-audio", "openai-audio"),
   ("sdxl-turbo", "turbo"),
   ("gpt-image", "gptimage"),
   ("flux-kontext", "kontext")]

/-- `swapAliases` construction (src/client.js:71-74): the inverse mapping,
last writer wins. -/
def buildSwap (l : List (String × String)) : List (String × String) :=
  l.foldl (fun acc kv => assocSet acc kv.2 kv.1) []

def pollinationsSwap : List (String × String) :=
  buildSwap pollinationsModelAliases

/-- What `textModelsResponse` / `imageModelsResponse` hold after
`Promise.all` (src/client.js:285-292): either a real `Response`, or the
plain substitute value produced by the `.catch` handler. -/
inductive PromiseVal where
  | response (body : J)
  | plain (v : J)

/-- The `.json()` call (src/client.js:293-294): reads the body of a
`Response`; on the plain substitute object there is no `.json` method, so
the call throws a `TypeError` (modelled as `.error`). -/
def jsonMethod : PromiseVal → Except Unit J
  | .response b => .ok b
  | .plain _ => .error ()

/-- Outcome of one `_fetchWithProxyRotation(url)` call as seen by
`models.list`: a response body, or exhaustion of all proxies. -/
inductive ProxyFetch where
  | ok (body : J)
  | exhausted

/-- The text-model mapper (src/client.js:297-301):
`model.id = model.id || swapAliases[model.name] || model.name` and
`model.type = model.type || 'chat'`; property assignment on a non-object
throws. -/
def textMapElem (m : J) : Except Unit J :=
  match m with
  | .obj _ =>
    let idv := jGet m "id"
    let swapv : J := match pollinationsSwap.lookup (jKeyStrS (jGet m "name")) with
      | some s => .str s
      | none => .undefined
    let newId := if jTruthy idv then idv else if jTruthy swapv then swapv else jGet m "name"
    let m1 := jSetField m "id" newId
    let m2 := if jTruthy (jGet m1 "type") then m1 else jSetField m1 "type" (.str "chat")
    .ok m2
  | _ => .error ()

/-- The image-model mapper (src/client.js:302-304):
`{ id: swapAliases[model] || model, type: 'image' }`. -/
def imageMapElem (m : J) : J :=
  let swapv : J := match pollinationsSwap.lookup (jKeyStrS m) with
    | some s => .str s
    | none => .undefined
  .obj [("id", if jTruthy swapv then swapv else m), ("type", .str "image")]

/-- JS `Array.prototype.map` with a possibly-throwing body; `.map` on a
non-array throws. -/
def jsMapArr (f : J → Except Unit J) : J → Except Unit (List J)
  | .arr l => l.mapM f
  | _ => .error ()

/-- The static fallback catalog (src/client.js:309-312). -/
def pollinationsFallback : List J :=
  [J.obj [("id", J.str "gpt-4.1-mini"), ("type", J.str "chat")],
   J.obj [("id", J.str "deepseek-v3"), ("type", J.str "chat")],
   J.obj [("id", J.str "flux"), ("type", J.str "image")],
   J.obj [("id", J.str "gpt-image"), ("type", J.str "image")]]

/-- `PollinationsAI.models.list` (src/client.js:280-316) with an empty
`_models` cache: the two catalog fetch outcomes are the oracles; the body
runs in the `try`, and any thrown error lands in the `catch`, which returns
the static fallback. -/
def pollinationsModelsList (textRes imageRes : ProxyFetch) : List J :=
  let tv : PromiseVal := match textRes with
    | .ok b => .response b
    | .exhausted => .plain (J.obj [("data", J.arr [])])
  let iv : PromiseVal := match imageRes with
    | .ok b => .response b
    | .exhausted => .plain (J.arr [])
  let r : Except Unit (List J) := do
    let tj ← jsonMethod tv
    let ij ← jsonMethod iv
    let td := jGet tj "data"
    let textModels : J := if jTruthy td then td else if jTruthy tj then tj else .arr []
    let m1 ← jsMapArr textMapElem textModels
    let m2 ← jsMapArr (fun m => .ok (imageMapElem m)) ij
    pure (m1 ++ m2)
  match r with
  | .ok l => l
  | .error _ => pollinationsFallback

/-! ## `Together` adapter (src/client.js:339-554) -/
/-- An entry of `Together.modelAliases`: a single physical id, or an ordered
set of equivalent physical ids. -/
inductive AliasEntry where
  | one (s : String)
  | many (l : List String)

/-- `Together.modelAliases` (src/client.js:352-416). -/
def togetherModelAliases : List (String × AliasEntry) :=
  [("llama-3.2-3b", .one "meta-llama/Llama-3.2-3B-Instruct-Turbo"),
   ("llama-2-70b", .many ["meta-llama/Llama-2-70b-hf", "meta-llama/Llama-2-70b-hf"]),
   ("llama-3-70b", .many ["meta-llama/Meta-Llama-3-70B-Instruct-Turbo",
     "meta-llama/Llama-3-70b-chat-hf"]),
   ("llama-3.2-90b", .one "meta-llama/Llama-3.2-90B-Vision-Instruct-Turbo"),
   ("llama-3.3-70b", .many ["meta-llama/Llama-3.3-70B-Instruct-Turbo",
     "meta-llama/Llama-3.3-70B-Instruct-Turbo-Free"]),
   ("llama-4-scout", .one "meta-llama/Llama-4-Scout-17B-16E-Instruct"),
   ("llama-3.1-8b", .many ["meta-llama/Meta-Llama-3.1-8B-Instruct-Turbo",
     "blackbox/meta-llama-3-1-8b"]),
   ("llama-3.2-11b", .one "meta-llama/Llama-3.2-11B-Vision-Instruct-Turbo"),
   ("llama-3-8b", .many ["meta-llama/Llama-3-8b-chat-hf",
     "meta-llama/Meta-Llama-3-8B-Instruct-Lite"]),
   ("llama-3.1-70b", .many ["meta-llama/Meta-Llama-3.1-70B-Instruct-Turbo"]),
   ("llama-3.1-405b", .one "meta-llama/Meta-Llama-3.1-405B-Instruct-Turbo"),
   ("llama-4-maverick", .one "meta-llama/Llama-4-Maverick-17B-128E-Instruct-FP8"),
   ("deepseek-r1", .one "deepseek-ai/DeepSeek-R1"),
   ("deepseek-v3", .many ["deepseek-ai/DeepSeek-V3", "deepseek-ai/DeepSeek-V3-p-dp"]),
   ("deepseek-r1-distill-llama-70b", .many ["deepseek-ai/DeepSeek-R1-Distill-Llama-70B",
     "deepseek-ai/DeepSeek-R1-Distill-Llama-70B-free"]),
   ("deepseek-r1-distill-qwen-1.5b", .one "deepseek-ai/DeepSeek-R1-Distill-Qwen-1.5B"),
   ("deepseek-r1-distill-qwen-14b", .one "deepseek-ai/DeepSeek-R1-Distill-Qwen-14B"),
   ("qwen-2.5-vl-72b", .one "Qwen/Qwen2.5-VL-72B-Instruct"),
   ("qwen-2.5-coder-32b", .one "Qwen/Qwen2.5-Coder-32B-Instruct"),
   ("qwen-2.5-7b", .one "Qwen/Qwen2.5-7B-Instruct-Turbo"),
   ("qwen-2-vl-72b", .one "Qwen/Qwen2-VL-72B-Instruct"),
   ("qwq-32b", .one "Qwen/QwQ-32B"),
   ("qwen-2.5-72b", .one "Qwen/Qwen2.5-72B-Instruct-Turbo"),
   ("qwen-3-235b", .many ["Qwen/Qwen3-235B-A22B-fp8", "Qwen/Qwen3-235B-A22B-fp8-tput"]),
   ("qwen-2-72b", .one "Qwen/Qwen2-72B-Instruct"),
   ("mixtral-8x7b", .one "mistralai/Mixtral-8x7B-Instruct-v0.1"),
   ("mistral-small-24b", .one "mistralai/Mistral-Small-24B-Instruct-2501"),
   ("mistral-7b", .many ["mistralai/Mistral-7B-Instruct-v0.1",
     "mistralai/Mistral-7B-Instruct-v0.2", "mistralai/Mistral-7B-Instruct-v0.3"]),
   ("gemma-2-27b", .one "google/gemma-2-27b-it"),
   ("nemotron-70b", .one "nvidia/Llama-3.1-Nemotron-70B-Instruct-HF"),
   ("hermes-2-dpo", .one "NousResearch/Nous-Hermes-2-Mixtral-8x7B-DPO"),
   ("r1-1776", .one "perplexity-ai/r1-1776"),
   ("flux", .many ["black-forest-labs/FLUX.1-schnell-Free",
     "black-forest-labs/FLUX.1-schnell", "black-forest-labs/FLUX.1.1-pro",
     "black-forest-labs/FLUX.1-pro", "black-forest-labs/FLUX.1-dev"]),
   ("flux-schnell", .many ["black-forest-labs/FLUX.1-schnell-Free",
     "black-forest-labs/FLUX.1-schnell"]),
   ("flux-pro", .many ["black-forest-labs/FLUX.1.1-pro", "black-forest-labs/FLUX.1-pro"]),
   ("flux-redux", .one "black-forest-labs/FLUX.1-redux"),
   ("flux-depth", .one "black-forest-labs/FLUX.1-depth"),
   ("flux-canny", .one "black-forest-labs/FLUX.1-canny"),
   ("flux-kontext-max", .one "black-forest-labs/FLUX.1-kontext-max"),
   ("flux-dev-lora", .one "black-forest-labs/FLUX.1-dev-lora"),
   ("flux-dev", .many ["black-forest-labs/FLUX.1-dev", "black-forest-labs/FLUX.1-dev-lora"]),
   ("flux-kontext-pro", .one "black-forest-labs/FLUX.1-kontext-pro")]

def togetherDefaultModel : String := "meta-llama/Llama-4-Maverick-17B-128E-Instruct-FP8"

/-- JS truthiness of an alias-table entry (`if (this.modelAliases[model])`):
a string is truthy when non-empty, an array always. -/
def aliasTruthy : AliasEntry → Bool
  | .one s => s != ""
  | .many _ => true

/-- `Together._getModel` (src/client.js:425-442).  The value of
`Math.random()` is the oracle `r`, drawn from `[0, 1)`; array aliases select
index `Math.floor(r * alias.length)`, a fresh draw on every call. -/
def togetherGetModel (r : ℚ) (model : Option String) (defaultModel : String) : String :=
  let m := match model with
    | none => defaultModel
    | some s => if s = "" then defaultModel else s
  match togetherModelAliases.lookup m with
  | some e =>
    if aliasTruthy e then
      match e with
      | .one a => a
      | .many l => l.getD (Int.toNat ⌊r * l.length⌋) ""
    else m
  | none => m

/-- One record of the Together model catalog, as consumed by `_loadModels`
(src/client.js:470-484). -/
structure TModelConfig where
  stop : Option (List String)
  chat_template : Option String
  bos_token : Option String
  eos_token : Option String

structure TModel where
  id : Option String
  config : Option TModelConfig
  context_length : Option Nat

/-- A `_modelConfigs` entry (src/client.js:474-483); `emptyConfigEntry` is
the `{}` stored when the record has no `config`, and also the `{}` returned
by `_getModelConfig` on a miss. -/
structure ConfigEntry where
  stop : Option (List String)
  chatTemplate : Option String
  bosToken : Option String
  eosToken : Option String
  contextLength : Option Nat

def emptyConfigEntry : ConfigEntry := ⟨none, none, none, none, none⟩

def entryOfModel (m : TModel) : ConfigEntry :=
  match m.config with
  | some c => ⟨some (c.stop.getD []), c.chat_template, c.bos_token, c.eos_token,
      m.context_length⟩
  | none => emptyConfigEntry

structure TogetherState where
  cachedModels : List TModel
  modelConfigs : List (String × ConfigEntry)

def togetherInitState : TogetherState := ⟨[], []⟩

/-- `await this.getApiKey()` (src/client.js:454): `getApiKey` is defined
nowhere in the repository, so this call always throws a `TypeError`. -/
def getApiKeyCall : Except Unit Unit := .error ()

/-- `Together._loadModels` (src/client.js:448-491): returns the cache when
non-empty; otherwise runs the `try` block — whose very first step,
`getApiKeyCall`, throws — and the `catch` returns the (unchanged) cache.
The catalog-processing code is kept for fidelity but is unreachable. -/
def togetherLoadModels (st : TogetherState)
    (catalog : Except Unit (List TModel)) : TogetherState :=
  if st.cachedModels.length > 0 then st
  else
    match getApiKeyCall with
    | .error _ => st
    | .ok _ =>
      match catalog with
      | .error _ => st
      | .ok data =>
        { cachedModels := data
          modelConfigs := data.foldl (fun acc m =>
            match m.id with
            | none => acc
            | some mid => if mid = "" then acc else assocSet acc mid (entryOfModel m)) [] }

/-- `Together._getModelConfig` (src/client.js:444-446). -/
def togetherGetModelConfig (st : TogetherState) (model : String) : ConfigEntry :=
  (st.modelConfigs.lookup model).getD emptyConfigEntry

/-- The guard `!this._cachedModels.length < 1` (src/client.js:513): JS `!`
coerces the length to a boolean (`!0 = true`, `!n = false`), and `<`
coerces that boolean back to the number 1 or 0 — so the condition holds
exactly when the cache is NON-empty. -/
def togetherChatLoadGuard (cached : List TModel) : Bool :=
  decide ((if cached.length == 0 then (1 : Nat) else 0) < 1)

structure TogetherChatParams where
  model : Option String
  stop : Option (List String)

/-- `Together.chat.completions.create` (src/client.js:509-541): the guard,
model resolution, and the stop-sequence injection from the cached config;
returns the params object as sent and the adapter state after the call. -/
def togetherChatCreate (st : TogetherState) (catalog : Except Unit (List TModel))
    (r : ℚ) (params : TogetherChatParams) : TogetherChatParams × TogetherState :=
  let st1 := if togetherChatLoadGuard st.cachedModels
    then togetherLoadModels st catalog else st
  let model := togetherGetModel r params.model togetherDefaultModel
  let p1 : TogetherChatParams := { model := some model, stop := params.stop }
  let cfg := togetherGetModelConfig st1 model
  let p2 := match p1.stop, cfg.stop with
    | none, some l => if l.length > 0 then { p1 with stop := some l } else p1
    | _, _ => p1
  (p2, st1)

/-! ## `HuggingFace` adapter (src/client.js:645-790) -/
/-- One provider-routing entry (`{ task, providerId }`). -/
structure PEntry where
  task : String
  providerId : String

inductive HFErr where
  | fetchFailed (status : Nat)
  | modelNotSupported (model : String)
  | taskMismatch (model task : String)

/-- `HuggingFace.modelAliases` (src/client.js:659-681). -/
def hfModelAliases : List (String × String) :=
  [("llama-3", "meta-llama/Llama-3.3-70B-Instruct"),
   ("llama-3.3-70b", "meta-llama/Llama-3.3-70B-Instruct"),
   ("command-r-plus", "CohereForAI/c4ai-command-r-plus-08-2024"),
   ("deepseek-r1", "deepseek-ai/DeepSeek-R1"),
   ("deepseek-v3", "deepseek-ai/DeepSeek-V3"),
   ("qwq-32b", "Qwen/QwQ-32B"),
   ("nemotron-70b", "nvidia/Llama-3.1-Nemotron-70B-Instruct-HF"),
   ("qwen-2.5-coder-32b", "Qwen/Qwen2.5-Coder-32B-Instruct"),
   ("llama-3.2-11b", "meta-llama/Llama-3.2-11B-Vision-Instruct"),
   ("mistral-nemo", "mistralai/Mistral-Nemo-Instruct-2407"),
   ("phi-3.5-mini", "microsoft/Phi-3.5-mini-instruct"),
   ("gemma-3-27b", "google/gemma-3-27b-it"),
   ("flux", "black-forest-labs/FLUX.1-dev"),
   ("flux-dev", "black-forest-labs/FLUX.1-dev"),
   ("flux-schnell", "black-forest-labs/FLUX.1-schnell"),
   ("stable-diffusion-3.5-large", "stabilityai/stable-diffusion-3.5-large"),
   ("sdxl-1.0", "stabilityai/stable-diffusion-xl-base-1.0"),
   ("sdxl-turbo", "stabilityai/sdxl-turbo"),
   ("sd-3.5-large", "stabilityai/stable-diffusion-3.5-large")]

def hfDefaultModel : String := "meta-llama/Meta-Llama-3-8B-Instruct"

/-- `this.providerMapping` cache: per model id, either a mapping (a key-ordered
object/array of routing entries) or the stored JS `undefined` (`none`) that a
fetch without an `inferenceProviderMapping` field leaves behind. -/
structure HFState where
  providerMapping : List (String × Option (List (String × PEntry)))

/-- The statically configured mapping (src/client.js:684-692). -/
def hfInitState : HFState :=
  ⟨[("google/gemma-3-27b-it",
     some [("hf-inference/models/google/gemma-3-27b-it",
       ⟨"conversational", "google/gemma-3-27b-it"⟩)])]⟩

/-- Outcome of the mapping fetch, when one happens: an HTTP failure, or a
body whose `inferenceProviderMapping` field may be absent. -/
inductive HFFetchRes where
  | httpError (status : Nat)
  | body (mapping : Option (List (String × PEntry)))

/-- `HuggingFace._getMapping` (src/client.js:716-731): the truthiness check
`if (this.providerMapping[model])` treats a stored `undefined` like a miss,
so only a present mapping short-circuits the fetch; a fetched value is
stored whether or not the field was present.  Returns the result, the new
cache state, and the number of fetches issued (0 or 1). -/
def hfGetMapping (st : HFState) (fetch : HFFetchRes) (model : String) :
    Except HFErr (Option (List (String × PEntry))) × HFState × Nat :=
  match st.providerMapping.lookup model with
  | some (some m) => (.ok (some m), st, 0)
  | _ =>
    match fetch with
    | .httpError s => (.error (.fetchFailed s), st, 1)
    | .body om => (.ok om, ⟨assocSet st.providerMapping model om⟩, 1)

/-- The per-provider router path (src/client.js:754-761). -/
def hfRoute (providerKey model : String) : String :=
  if providerKey = "novita" then "novita/v3/openai"
  else if providerKey = "hf-inference" then "hf-inference/models/" ++ model ++ "/v1"
  else providerKey ++ "/v1"

/-- Alias resolution in `HuggingFace.chat.completions.create`
(src/client.js:739-744). -/
def hfResolveAlias (paramsModel : Option String) : String :=
  let m0 := match paramsModel with
    | none => hfDefaultModel
    | some s => if s = "" then hfDefaultModel else s
  match hfModelAliases.lookup m0 with
  | some a => if a != "" then a else m0
  | none => m0

/-- `HuggingFace.chat.completions.create` (src/client.js:733-789): resolve
the alias, resolve the routing map, take the FIRST entry only (`break`),
validate its task, rewrite the endpoint to the router path and substitute
the provider's model id.  An empty mapping object is truthy, so it skips
the loop and the template `${apiBase}` stringifies the never-assigned
`this.apiBase` as "undefined".  Returns (url, sent model id), the new
state, and the fetch count. -/
def hfChatCreate (st : HFState) (fetch : HFFetchRes) (paramsModel : Option String) :
    Except HFErr (String × String) × HFState × Nat :=
  let model := hfResolveAlias paramsModel
  match hfGetMapping st fetch model with
  | (.error e, st2, n) => (.error e, st2, n)
  | (.ok om, st2, n) =>
    match om with
    | none => (.error (.modelNotSupported model), st2, n)
    | some mapping =>
      match mapping with
      | [] => (.ok ("undefined/chat/completions", model), st2, n)
      | (k, e) :: _ =>
        let apiBase := "https://router.huggingface.co/" ++ hfRoute k model
        if e.task != "conversational" then
          (.error (.taskMismatch model e.task), st2, n)
        else
          (.ok (apiBase ++ "/chat/completions", e.providerId), st2, n)

/-! ## Base `Client`: chat params and `_defaultImageGeneration`
(src/client.js:46-163, 209-229) -/
/-- Base client configuration (the fields these claims exercise; the field
name `defaulImageModel` keeps the source's spelling, src/client.js:60). -/
structure ClientCfg where
  defaultModel : Option String
  defaulImageModel : String
  modelAliases : List (String × J)
  referrer : Option String
  imageEndpoint : String

/-- `params.model || this.defaultModel` followed by the alias lookup
(src/client.js:106-109). -/
def clientResolveModel (cfg : ClientCfg) (params : List (String × J)) : J :=
  let pmodel := (params.lookup "model").getD .undefined
  let m0 : J := if jTruthy pmodel then pmodel
    else match cfg.defaultModel with
      | some d => J.str d
      | none => J.null
  let aliasVal := (cfg.modelAliases.lookup (jKeyStrS m0)).getD .undefined
  if jTruthy aliasVal then aliasVal else m0

/-- The in-place mutation of the caller's params object performed by
`Client.chat.completions.create` before the fetch (src/client.js:105-113):
`params.model = modelId` and, when a referrer is configured,
`params.referrer = this.referrer`.  Returns the caller-visible object. -/
def clientChatPrepare (cfg : ClientCfg) (params : List (String × J)) :
    List (String × J) :=
  let p1 := assocSet params "model" (clientResolveModel cfg params)
  match cfg.referrer with
  | some rr => if rr != "" then assocSet p1 "referrer" (J.str rr) else p1
  | none => p1

/-- `imageEndpoint.includes('{prompt}')` dispatch (src/client.js:157). -/
def imagesGenerateUsesTemplate (cfg : ClientCfg) : Bool :=
  containsSub "{prompt}".data cfg.imageEndpoint.data

/-- JS `str.split(sep)` for a one-character separator. -/
def splitOnChar (c : Char) : List Char → List (List Char)
  | [] => [[]]
  | d :: rest =>
    let r := splitOnChar c rest
    if d = c then [] :: r
    else
      match r with
      | [] => [[d]]
      | l :: ls => (d :: l) :: ls

/-- JS `str.replace(pat, rep)` for a plain-string pattern (first occurrence;
the replacement string here is percent-encoded, so it can contain no `$`
pattern). -/
def replaceOnce (pat rep : List Char) : List Char → List Char
  | [] => if pat.isPrefixOf ([] : List Char) then rep else []
  | c :: rest =>
    if pat.isPrefixOf (c :: rest) then rep ++ (c :: rest).drop pat.length
    else c :: replaceOnce pat rep rest

/-- `encodeURIComponent(prompt).replaceAll('%20', '+')`
(src/client.js:212): in encoded output `%20` occurs exactly at encoded
spaces, and the scan replaces every occurrence left to right. -/
def replace20 : List Char → List Char
  | '%' :: '2' :: '0' :: rest => '+' :: replace20 rest
  | c :: rest => c :: replace20 rest
  | [] => []

/-- Characters the `application/x-www-form-urlencoded` serializer used by
`URLSearchParams.toString()` leaves unescaped. -/
def isFormUnreserved (c : Char) : Bool :=
  c.isAlpha || c.isDigit || ['*', '-', '.', '_'].contains c

/-- One component of `URLSearchParams.toString()`: space becomes `+`, other
reserved characters are percent-encoded from their UTF-8 bytes. -/
def formEncodeL (s : List Char) : List Char :=
  (s.map (fun c =>
    if c = ' ' then ['+']
    else if isFormUnreserved c then [c]
    else (utf8Bytes c).map percentByte |>.flatten)).flatten

/-- `new URLSearchParams(params).toString()` (src/client.js:221-223):
stringified key/value pairs in insertion order, joined with `&`. -/
def formSerialize (p : List (String × J)) : String :=
  ⟨((p.map (fun kv => formEncodeL kv.1.data ++ '=' :: formEncodeL (jKeyStrS kv.2).data)).intersperse
    ['&']).flatten⟩

def jIsUndefined : J → Bool
  | .undefined => true
  | _ => false

/-- The mutations `_defaultImageGeneration` applies to its local copy of
`params` before the prompt/size handling (src/client.js:210-215): delete
`prompt`, default `nologo` to `true` when it is `undefined`, and set the
configured referrer. -/
def imageParamsBase (cfg : ClientCfg) (params : List (String × J)) :
    List (String × J) :=
  let p1 := assocDelete params "prompt"
  let p2 := if jIsUndefined ((p1.lookup "nologo").getD .undefined)
    then assocSet p1 "nologo" (.bool true) else p1
  match cfg.referrer with
  | some rr => if rr != "" then assocSet p2 "referrer" (.str rr) else p2
  | none => p2

/-- The `size` handling (src/client.js:216-220): a truthy `size` is split on
`'x'`, `width`/`height` are set from the two halves, and `size` is deleted;
`split` on a non-string throws. -/
def imageParamsPipeline (cfg : ClientCfg) (params : List (String × J)) :
    Except Unit (List (String × J)) :=
  let p3 := imageParamsBase cfg params
  let sizeJ := (p3.lookup "size").getD .undefined
  if jTruthy sizeJ then
    match sizeJ with
    | .str s =>
      let parts := splitOnChar 'x' s.data
      let w : J := match parts[0]? with
        | some l => .str ⟨l⟩
        | none => .undefined
      let h : J := match parts[1]? with
        | some l => .str ⟨l⟩
        | none => .undefined
      .ok (assocDelete (assocSet (assocSet p3 "width" w) "height" h) "size")
    | _ => .error ()
  else .ok p3

/-- `encodeURIComponent(params.prompt ? params.prompt : '')` with `%20`
replaced by `+` (src/client.js:211-212), read from the caller's object
before the copy is mutated. -/
def imagePrompt (params : List (String × J)) : List Char :=
  let promptJ := (params.lookup "prompt").getD .undefined
  let prompt0 : String := if jTruthy promptJ then jKeyStrS promptJ else ""
  replace20 (encodeURIComponentL prompt0.data)

/-- Result of `_defaultImageGeneration`: the caller's params object after
the call (untouched — the function works on `{...params}`), the processed
query params, the GET URL, and the synthesized `{data: [{url}]}` wrapper
around the response's final URL. -/
structure ImgResult where
  callerParams : List (String × J)
  queryParams : List (String × J)
  url : String
  result : J

/-- `Client._defaultImageGeneration` (src/client.js:209-229); `respUrl` is
the oracle for `response.url`, the final URL after redirects. -/
def defaultImageGeneration (cfg : ClientCfg) (params : List (String × J))
    (respUrl : String) : Except Unit ImgResult :=
  match imageParamsPipeline cfg params with
  | .error e => .error e
  | .ok p6 =>
    .ok ⟨params, p6,
      (⟨replaceOnce "{prompt}".data (imagePrompt params) cfg.imageEndpoint.data⟩ : String)
        ++ "?" ++ formSerialize p6,
      .obj [("data", .arr [.obj [("url", .str respUrl)]])]⟩

/-! ## Lemmas and claim theorems -/

lemma rotateProxy_proxies (m : CorsProxyManager) : (rotateProxy m).proxies = m.proxies := rfl

lemma rotateProxy_lt (m : CorsProxyManager) (h : 0 < m.proxies.length) :
    (rotateProxy m).currentIndex < m.proxies.length :=
  Nat.mod_lt _ h

lemma fetchRotGo_len (world : Nat → FetchOutcome) :
    ∀ fuel a m, (fetchRotGo world fuel a m).2.2.length ≤ fuel := by
  intro fuel
  induction fuel with
  | zero => intro a m; simp [fetchRotGo]
  | succ n ih =>
    intro a m
    simp only [fetchRotGo]
    by_cases h : attemptFailed (world a)
    · simp only [h, if_pos]
      have := ih (a + 1) (rotateProxy m)
      simpa using Nat.succ_le_succ this
    · simp [h]

lemma fetchRotGo_proxies (world : Nat → FetchOutcome) :
    ∀ fuel a m, (fetchRotGo world fuel a m).2.1.proxies = m.proxies := by
  intro fuel
  induction fuel with
  | zero => intro a m; simp [fetchRotGo]
  | succ n ih =>
    intro a m
    simp only [fetchRotGo]
    by_cases h : attemptFailed (world a)
    · simp only [h, if_pos]
      simpa [rotateProxy_proxies] using ih (a + 1) (rotateProxy m)
    · simp [h]

/-- The cursor position of attempt `i` is the starting cursor advanced by
`i`, modulo the list length: each failed attempt rotated exactly once. -/
lemma fetchRotGo_trace (world : Nat → FetchOutcome) :
    ∀ fuel a m, 0 < m.proxies.length → m.currentIndex < m.proxies.length →
      ∀ i, i < (fetchRotGo world fuel a m).2.2.length →
        (fetchRotGo world fuel a m).2.2[i]? =
          some ((m.currentIndex + i) % m.proxies.length) := by
  intro fuel
  induction fuel with
  | zero => intro a m _ _ i hi; simp [fetchRotGo] at hi
  | succ n ih =>
    intro a m hN hidx i hi
    by_cases h : attemptFailed (world a) = true
    · have e : fetchRotGo world (n + 1) a m =
          ((fetchRotGo world n (a + 1) (rotateProxy m)).1,
            (fetchRotGo world n (a + 1) (rotateProxy m)).2.1,
            m.currentIndex :: (fetchRotGo world n (a + 1) (rotateProxy m)).2.2) := by
        simp only [fetchRotGo]; rw [if_pos h]
      rw [e] at hi ⊢
      cases i with
      | zero => simp [Nat.mod_eq_of_lt hidx]
      | succ j =>
        simp only [List.getElem?_cons_succ]
        have hj : j < (fetchRotGo world n (a + 1) (rotateProxy m)).2.2.length := by
          simpa using hi
        rw [ih (a + 1) (rotateProxy m)
          (by simpa [rotateProxy_proxies] using hN) (rotateProxy_lt m hN) j hj]
        simp only [rotateProxy]
        rw [Nat.mod_add_mod]
        ring_nf
    · have e : fetchRotGo world (n + 1) a m = (some (world a), m, [m.currentIndex]) := by
        simp only [fetchRotGo]; rw [if_neg h]
      rw [e] at hi ⊢
      cases i with
      | zero => simp [Nat.mod_eq_of_lt hidx]
      | succ j => simp at hi

/-- The loop returns `none` (all proxies exhausted) exactly when every one of
its `fuel` attempts fails. -/
lemma fetchRotGo_none_iff (world : Nat → FetchOutcome) :
    ∀ fuel a m, (fetchRotGo world fuel a m).1 = none ↔
      ∀ k, k < fuel → attemptFailed (world (a + k)) := by
  intro fuel
  induction fuel with
  | zero => intro a m; simp [fetchRotGo]
  | succ n ih =>
    intro a m
    by_cases h : attemptFailed (world a) = true
    · have e : fetchRotGo world (n + 1) a m =
          ((fetchRotGo world n (a + 1) (rotateProxy m)).1,
            (fetchRotGo world n (a + 1) (rotateProxy m)).2.1,
            m.currentIndex :: (fetchRotGo world n (a + 1) (rotateProxy m)).2.2) := by
        simp only [fetchRotGo]; rw [if_pos h]
      rw [e]
      constructor
      · intro hrec k hk
        cases k with
        | zero => simpa using h
        | succ j =>
          have := (ih (a + 1) (rotateProxy m)).mp hrec j (by omega)
          have harith : a + 1 + j = a + (j + 1) := by omega
          rwa [harith] at this
      · intro hall
        apply (ih (a + 1) (rotateProxy m)).mpr
        intro j hj
        have := hall (j + 1) (by omega)
        have harith : a + 1 + j = a + (j + 1) := by omega
        rwa [harith]
    · have e : fetchRotGo world (n + 1) a m = (some (world a), m, [m.currentIndex]) := by
        simp only [fetchRotGo]; rw [if_neg h]
      rw [e]
      constructor
      · intro hx; exact absurd hx (by simp)
      · intro hall
        exact absurd (by simpa using hall 0 (Nat.succ_pos n)) h

/-- When the loop exhausts its fuel, one attempt was made per unit of fuel
and the cursor was rotated once per attempt. -/
lemma fetchRotGo_exhaust (world : Nat → FetchOutcome) :
    ∀ fuel a m, 0 < m.proxies.length → m.currentIndex < m.proxies.length →
      (fetchRotGo world fuel a m).1 = none →
      (fetchRotGo world fuel a m).2.2.length = fuel ∧
        (fetchRotGo world fuel a m).2.1.currentIndex =
          (m.currentIndex + fuel) % m.proxies.length := by
  intro fuel
  induction fuel with
  | zero =>
    intro a m _ hidx _
    simp [fetchRotGo, Nat.mod_eq_of_lt hidx]
  | succ n ih =>
    intro a m hN hidx hnone
    by_cases h : attemptFailed (world a) = true
    · have e : fetchRotGo world (n + 1) a m =
          ((fetchRotGo world n (a + 1) (rotateProxy m)).1,
            (fetchRotGo world n (a + 1) (rotateProxy m)).2.1,
            m.currentIndex :: (fetchRotGo world n (a + 1) (rotateProxy m)).2.2) := by
        simp only [fetchRotGo]; rw [if_pos h]
      rw [e] at hnone ⊢
      have hrec := ih (a + 1) (rotateProxy m)
        (by simpa [rotateProxy_proxies] using hN) (rotateProxy_lt m hN) hnone
      refine ⟨by simpa using hrec.1, ?_⟩
      rw [hrec.2]
      simp only [rotateProxy]
      rw [Nat.mod_add_mod]
      ring_nf
    · have e : fetchRotGo world (n + 1) a m = (some (world a), m, [m.currentIndex]) := by
        simp only [fetchRotGo]; rw [if_neg h]
      rw [e] at hnone
      simp at hnone

/-- A successful result passed all the checks, the loop stopped at it, and
the cursor was left at the successful attempt's position (rotated once per
preceding failure, not after the success). -/
lemma fetchRotGo_success (world : Nat → FetchOutcome) :
    ∀ fuel a m, 0 < m.proxies.length → m.currentIndex < m.proxies.length →
      ∀ o, (fetchRotGo world fuel a m).1 = some o →
      attemptFailed o = false ∧ 1 ≤ (fetchRotGo world fuel a m).2.2.length ∧
        (fetchRotGo world fuel a m).2.1.currentIndex =
          (m.currentIndex + ((fetchRotGo world fuel a m).2.2.length - 1)) %
            m.proxies.length := by
  intro fuel
  induction fuel with
  | zero => intro a m _ _ o ho; simp [fetchRotGo] at ho
  | succ n ih =>
    intro a m hN hidx o ho
    by_cases h : attemptFailed (world a) = true
    · have e : fetchRotGo world (n + 1) a m =
          ((fetchRotGo world n (a + 1) (rotateProxy m)).1,
            (fetchRotGo world n (a + 1) (rotateProxy m)).2.1,
            m.currentIndex :: (fetchRotGo world n (a + 1) (rotateProxy m)).2.2) := by
        simp only [fetchRotGo]; rw [if_pos h]
      rw [e] at ho ⊢
      have hrec := ih (a + 1) (rotateProxy m)
        (by simpa [rotateProxy_proxies] using hN) (rotateProxy_lt m hN) o ho
      have hlen1 := hrec.2.1
      refine ⟨hrec.1, by simp, ?_⟩
      have hcur : (rotateProxy m).currentIndex = (m.currentIndex + 1) % m.proxies.length := rfl
      have hpp : (rotateProxy m).proxies.length = m.proxies.length := rfl
      rw [hrec.2.2, hcur, hpp, Nat.mod_add_mod, List.length_cons]
      congr 1
      omega
    · have e : fetchRotGo world (n + 1) a m = (some (world a), m, [m.currentIndex]) := by
        simp only [fetchRotGo]; rw [if_neg h]
      rw [e] at ho ⊢
      have hoo : o = world a := by simpa using ho.symm
      subst hoo
      refine ⟨by simpa using h, by simp, ?_⟩
      simp [Nat.mod_eq_of_lt hidx]

/-- C1: for every proxy list of length `N` (valid cursor), every target and
every world of fetch outcomes, `_fetchWithProxyRotation` makes at most `N`
attempts; attempt `i` uses the cursor advanced exactly `i` times (one
rotation per failed attempt), so consecutive attempts use distinct cursor
positions; it returns the exhaustion failure exactly when all `N` attempts
fail, in which case exactly `N` attempts were made and the rotated cursor
state persists in the returned manager; a success stops the loop with the
cursor at the successful proxy. -/
theorem c1_fetchWithProxyRotation_failover (world : Nat → FetchOutcome)
    (m : CorsProxyManager) (hN : 0 < m.proxies.length)
    (hidx : m.currentIndex < m.proxies.length) :
    (fetchWithProxyRotation world m).2.2.length ≤ m.proxies.length ∧
    (∀ i, i < (fetchWithProxyRotation world m).2.2.length →
      (fetchWithProxyRotation world m).2.2[i]? =
        some ((m.currentIndex + i) % m.proxies.length)) ∧
    (∀ i, i + 1 < (fetchWithProxyRotation world m).2.2.length →
      (fetchWithProxyRotation world m).2.2[i]? ≠
        (fetchWithProxyRotation world m).2.2[i + 1]?) ∧
    ((fetchWithProxyRotation world m).1 = none ↔
      ∀ k, k < m.proxies.length → attemptFailed (world k)) ∧
    ((fetchWithProxyRotation world m).1 = none →
      (fetchWithProxyRotation world m).2.2.length = m.proxies.length ∧
        (fetchWithProxyRotation world m).2.1.currentIndex = m.currentIndex) ∧
    (∀ o, (fetchWithProxyRotation world m).1 = some o →
      attemptFailed o = false ∧
        (fetchWithProxyRotation world m).2.1.currentIndex =
          (m.currentIndex + ((fetchWithProxyRotation world m).2.2.length - 1)) %
            m.proxies.length) := by
  have hw : fetchWithProxyRotation world m = fetchRotGo world m.proxies.length 0 m := rfl
  rw [hw]
  refine ⟨fetchRotGo_len world _ 0 m, fetchRotGo_trace world _ 0 m hN hidx, ?_, ?_, ?_, ?_⟩
  · intro i hi heq
    have h1 := fetchRotGo_trace world m.proxies.length 0 m hN hidx i (by omega)
    have h2 := fetchRotGo_trace world m.proxies.length 0 m hN hidx (i + 1) hi
    rw [h1, h2] at heq
    have hmod : (m.currentIndex + i) % m.proxies.length =
        (m.currentIndex + (i + 1)) % m.proxies.length := Option.some.inj heq
    have hdvd : m.proxies.length ∣ (m.currentIndex + (i + 1)) - (m.currentIndex + i) :=
      (Nat.modEq_iff_dvd' (by omega)).mp hmod
    have hone : m.proxies.length ∣ 1 := by
      have hsub : m.currentIndex + (i + 1) - (m.currentIndex + i) = 1 := by omega
      rwa [hsub] at hdvd
    have hlen := fetchRotGo_len world m.proxies.length 0 m
    have hN1 : m.proxies.length = 1 := Nat.dvd_one.mp hone
    omega
  · simpa using fetchRotGo_none_iff world m.proxies.length 0 m
  · intro hnone
    have h := fetchRotGo_exhaust world m.proxies.length 0 m hN hidx hnone
    refine ⟨h.1, ?_⟩
    rw [h.2, Nat.add_mod_right]
    exact Nat.mod_eq_of_lt hidx
  · intro o ho
    have h := fetchRotGo_success world m.proxies.length 0 m hN hidx o ho
    exact ⟨h.1, h.2.2⟩

/-- Witness for C1: the default ten-proxy manager with a world in which every
fetch throws makes exactly ten attempts, fails, and leaves the cursor
advanced ten times (back at position 0, persisted in the returned state). -/
theorem c1_fetchWithProxyRotation_failover_witness :
    (fetchWithProxyRotation (fun _ => .netError) ⟨defaultCorsProxies, 0⟩).1 = none ∧
    (fetchWithProxyRotation (fun _ => .netError) ⟨defaultCorsProxies, 0⟩).2.2.length = 10 ∧
    (fetchWithProxyRotation (fun _ => .netError) ⟨defaultCorsProxies, 0⟩).2.1.currentIndex = 0 := by
  have h := c1_fetchWithProxyRotation_failover (fun _ => .netError)
    ⟨defaultCorsProxies, 0⟩ (by simp [defaultCorsProxies]) (by simp [defaultCorsProxies])
  have hnone : (fetchWithProxyRotation (fun _ => .netError)
      ⟨defaultCorsProxies, 0⟩).1 = none :=
    (h.2.2.2.1).mpr (fun k _ => rfl)
  have hx := h.2.2.2.2.1 hnone
  exact ⟨hnone, by simpa [defaultCorsProxies] using hx.1, hx.2⟩

lemma splitLines_cons_newline (rest : List Char) :
    splitLines ('\n' :: rest) = ([] :: (splitLines rest).1, (splitLines rest).2) := by
  simp [splitLines]

lemma splitLines_cons_other (c : Char) (rest : List Char) (hc : c ≠ '\n') :
    splitLines (c :: rest) =
      (match (splitLines rest).1 with
       | [] => ([], c :: (splitLines rest).2)
       | l :: ls => ((c :: l) :: ls, (splitLines rest).2)) := by
  simp [splitLines, hc]

/-- Splitting a concatenation: the lines of `xs` are produced unchanged and
the trailing fragment of `xs` is prepended to `ys` — the carry-over buffer
is exactly this fragment. -/
lemma splitLines_append (xs ys : List Char) :
    splitLines (xs ++ ys) =
      ((splitLines xs).1 ++ (splitLines ((splitLines xs).2 ++ ys)).1,
        (splitLines ((splitLines xs).2 ++ ys)).2) := by
  induction xs with
  | nil => simp [splitLines]
  | cons c rest ih =>
    by_cases hc : c = '\n'
    · subst hc
      show splitLines ('\n' :: (rest ++ ys)) = _
      rw [splitLines_cons_newline, ih, splitLines_cons_newline]
      simp
    · show splitLines (c :: (rest ++ ys)) = _
      rw [splitLines_cons_other c _ hc, ih, splitLines_cons_other c _ hc]
      cases h1 : (splitLines rest).1 with
      | nil =>
        simp only [h1, List.nil_append]
        rw [List.cons_append, splitLines_cons_other c _ hc]
      | cons l ls =>
        simp only [h1, List.cons_append]

lemma splitLines_frag_nonl : ∀ l : List Char, '\n' ∉ (splitLines l).2 := by
  intro l
  induction l with
  | nil => simp [splitLines]
  | cons c rest ih =>
    by_cases hc : c = '\n'
    · subst hc; rw [splitLines_cons_newline]; exact ih
    · rw [splitLines_cons_other c _ hc]
      cases h1 : (splitLines rest).1 with
      | nil =>
        simp only []
        intro hmem
        rcases List.mem_cons.mp hmem with h | h
        · exact hc h.symm
        · exact ih h
      | cons l ls => simpa using ih

lemma splitLines_of_nonl (l : List Char) (h : '\n' ∉ l) : splitLines l = ([], l) := by
  induction l with
  | nil => simp [splitLines]
  | cons c rest ih =>
    have hc : c ≠ '\n' := fun hcc => h (hcc ▸ List.mem_cons_self c rest)
    have hrest : '\n' ∉ rest := fun hm => h (List.mem_cons_of_mem c hm)
    rw [splitLines_cons_other c _ hc, ih hrest]

/-- Invariant of the read loop: folding any chunk sequence onto a
newline-free carry buffer yields the events of the complete lines of the
concatenation, and keeps the trailing fragment as the new buffer. -/
lemma decode_go (parse : List Char → Option J) :
    ∀ (cs : List (List Char)) (acc : List J) (buf : List Char), '\n' ∉ buf →
      List.foldl (feedChunk parse) (acc, buf) cs =
        (acc ++ ((splitLines (buf ++ cs.flatten)).1.filterMap (lineEvent parse)),
          (splitLines (buf ++ cs.flatten)).2) := by
  intro cs
  induction cs with
  | nil =>
    intro acc buf hb
    simp [splitLines_of_nonl buf hb]
  | cons c rest ih =>
    intro acc buf hb
    simp only [List.foldl_cons, List.flatten_cons]
    have hfeed : feedChunk parse (acc, buf) c =
        (acc ++ (splitLines (buf ++ c)).1.filterMap (lineEvent parse),
          (splitLines (buf ++ c)).2) := rfl
    rw [hfeed, ih _ _ (splitLines_frag_nonl _)]
    rw [← List.append_assoc buf c rest.flatten]
    rw [splitLines_append (buf ++ c) rest.flatten]
    simp [List.filterMap_append, List.append_assoc]

/-- C2: decoding is chunk-boundary independent — feeding any splitting of a
character stream into the decoder loop yields exactly the events (and final
buffer) of feeding the whole stream as one chunk; moreover after each chunk
the carry-over buffer is exactly the trailing incomplete fragment of what
has arrived so far (it is never discarded before the stream ends). -/
theorem c2_streamCompletion_chunk_boundary_independent
    (parse : List Char → Option J) (chunks : List (List Char)) :
    decodeChunks parse chunks = decodeChunks parse [chunks.flatten] ∧
    (decodeChunks parse chunks).2 = (splitLines chunks.flatten).2 ∧
    (∀ k, (decodeChunks parse (chunks.take k)).2 =
      (splitLines (chunks.take k).flatten).2) := by
  have h1 := decode_go parse chunks [] [] (by simp)
  have h2 := decode_go parse [chunks.flatten] [] [] (by simp)
  refine ⟨?_, ?_, ?_⟩
  · rw [decodeChunks, decodeChunks, h1, h2]
    simp
  · rw [decodeChunks, h1]
    simp
  · intro k
    have hk := decode_go parse (chunks.take k) [] [] (by simp)
    rw [decodeChunks, hk]
    simp

lemma lookup_cons_self {β : Type} (k : String) (v : β) (rest : List (String × β)) :
    List.lookup k ((k, v) :: rest) = some v := by
  simp [List.lookup]

lemma lookup_cons_ne {β : Type} (k k₀ : String) (v : β) (rest : List (String × β))
    (h : k ≠ k₀) : List.lookup k ((k₀, v) :: rest) = List.lookup k rest := by
  have hb : (k == k₀) = false := beq_eq_false_iff_ne.mpr h
  simp [List.lookup, hb]

lemma assocSet_lookup_eq {β : Type} (fs : List (String × β)) (k : String) (x : β) :
    (assocSet fs k x).lookup k = some x := by
  induction fs with
  | nil => simp [assocSet, List.lookup]
  | cons kv rest ih =>
    obtain ⟨k', v⟩ := kv
    by_cases h : k' = k
    · rw [h]
      simp only [assocSet, if_true]
      exact lookup_cons_self k x rest
    · simp only [assocSet, if_neg h]
      rw [lookup_cons_ne k k' v _ (Ne.symm h)]
      exact ih

lemma assocSet_lookup_ne {β : Type} (fs : List (String × β)) (k k' : String) (x : β)
    (h : k' ≠ k) : (assocSet fs k x).lookup k' = fs.lookup k' := by
  induction fs with
  | nil =>
    simp only [assocSet]
    rw [lookup_cons_ne k' k x [] h]
  | cons kv rest ih =>
    obtain ⟨k₀, v⟩ := kv
    by_cases h0 : k₀ = k
    · rw [h0]
      simp only [assocSet, if_true]
      rw [lookup_cons_ne k' k x rest h, lookup_cons_ne k' k v rest h]
    · simp only [assocSet, if_neg h0]
      by_cases h1 : k' = k₀
      · rw [h1]
        rw [lookup_cons_self, lookup_cons_self]
      · rw [lookup_cons_ne k' k₀ v _ h1, lookup_cons_ne k' k₀ v _ h1]
        exact ih

lemma assocDelete_lookup_eq {β : Type} (fs : List (String × β)) (k : String) :
    (assocDelete fs k).lookup k = none := by
  induction fs with
  | nil => simp [assocDelete]
  | cons kv rest ih =>
    obtain ⟨k', v⟩ := kv
    by_cases h : k' = k
    · rw [h]
      simp only [assocDelete, List.filter_cons] at ih ⊢
      rw [if_neg (by simp)]
      exact ih
    · simp only [assocDelete, List.filter_cons] at ih ⊢
      rw [if_pos (by simpa using h)]
      rw [lookup_cons_ne k k' v _ (Ne.symm h)]
      exact ih

lemma assocDelete_lookup_ne {β : Type} (fs : List (String × β)) (k k' : String)
    (h : k' ≠ k) : (assocDelete fs k).lookup k' = fs.lookup k' := by
  induction fs with
  | nil => simp [assocDelete]
  | cons kv rest ih =>
    obtain ⟨k₀, v⟩ := kv
    by_cases h0 : k₀ = k
    · rw [h0]
      simp only [assocDelete, List.filter_cons] at ih ⊢
      rw [if_neg (by simp)]
      rw [lookup_cons_ne k' k v rest h]
      exact ih
    · simp only [assocDelete, List.filter_cons] at ih ⊢
      rw [if_pos (by simpa using h0)]
      by_cases h1 : k' = k₀
      · rw [h1]
        rw [lookup_cons_self, lookup_cons_self]
      · rw [lookup_cons_ne k' k₀ v _ h1, lookup_cons_ne k' k₀ v _ h1]
        exact ih

/-- C7 counterexample: a streamed event whose first choice's delta carries
the `reasoning` field with the (falsy) value `""` is yielded by the decoder
unchanged — it still carries `reasoning`, but no `reasoning_content` key is
added, because the source guards the copy with JS truthiness of the value,
not with presence of the field. -/
theorem c7_reasoning_copy_counterexample :
    lineEvent
      (fun _ => some (J.obj [("choices",
        J.arr [J.obj [("delta", J.obj [("reasoning", J.str "")])]])]))
      "data: e".data =
      some (J.obj [("choices",
        J.arr [J.obj [("delta", J.obj [("reasoning", J.str "")])]])]) ∧
    jGet (jGet (jIndex (jGet (J.obj [("choices",
        J.arr [J.obj [("delta", J.obj [("reasoning", J.str "")])]])])
      "choices") 0) "delta") "reasoning" = J.str "" ∧
    jGet (jGet (jIndex (jGet (J.obj [("choices",
        J.arr [J.obj [("delta", J.obj [("reasoning", J.str "")])]])])
      "choices") 0) "delta") "reasoning_content" = J.undefined := by
  refine ⟨?_, rfl, rfl⟩
  rfl

/-- C7 amended: for every streamed event whose first choice's delta carries
a `reasoning` field with a truthy value, the yielded event carries both the
original `reasoning` field and a `reasoning_content` field with the same
value (the value is copied onto the same delta object, not renamed); a
falsy `reasoning` value (such as the empty string) leaves the event
untouched. -/
theorem c7_reasoning_copy_amended (fields cfs dfs : List (String × J))
    (rest : List J) (v : J)
    (hch : fields.lookup "choices" = some (J.arr (J.obj cfs :: rest)))
    (hdelta : cfs.lookup "delta" = some (J.obj dfs))
    (hreas : dfs.lookup "reasoning" = some v)
    (htr : jTruthy v = true) :
    jGet (jGet (jIndex (jGet (addReasoning (J.obj fields)) "choices") 0)
      "delta") "reasoning" = v ∧
    jGet (jGet (jIndex (jGet (addReasoning (J.obj fields)) "choices") 0)
      "delta") "reasoning_content" = v := by
  have h1 : jGet (J.obj fields) "choices" = J.arr (J.obj cfs :: rest) := by
    simp [jGet, hch]
  have h2 : jIndex (J.arr (J.obj cfs :: rest)) 0 = J.obj cfs := by
    simp [jIndex]
  have h3 : jGet (J.obj cfs) "delta" = J.obj dfs := by
    simp [jGet, hdelta]
  have h4 : jGet (J.obj dfs) "reasoning" = v := by
    simp [jGet, hreas]
  have hres : addReasoning (J.obj fields) =
      J.obj (assocSet fields "choices"
        (J.arr (J.obj (assocSet cfs "delta"
          (J.obj (assocSet dfs "reasoning_content" v))) :: rest))) := by
    have hcond : (jTruthy (J.arr (J.obj cfs :: rest)) && jTruthy v) = true := by
      rw [htr]; rfl
    simp only [addReasoning, h1, h2, h3, h4, hcond, eq_self_iff_true, if_true,
      jSetField, jSetIndex, List.set]
  rw [hres]
  have h5 : jGet (J.obj (assocSet fields "choices"
      (J.arr (J.obj (assocSet cfs "delta"
        (J.obj (assocSet dfs "reasoning_content" v))) :: rest)))) "choices" =
      J.arr (J.obj (assocSet cfs "delta"
        (J.obj (assocSet dfs "reasoning_content" v))) :: rest) := by
    simp [jGet, assocSet_lookup_eq]
  rw [h5]
  have h6 : jIndex (J.arr (J.obj (assocSet cfs "delta"
      (J.obj (assocSet dfs "reasoning_content" v))) :: rest)) 0 =
      J.obj (assocSet cfs "delta" (J.obj (assocSet dfs "reasoning_content" v))) := by
    simp [jIndex]
  rw [h6]
  have h7 : jGet (J.obj (assocSet cfs "delta"
      (J.obj (assocSet dfs "reasoning_content" v)))) "delta" =
      J.obj (assocSet dfs "reasoning_content" v) := by
    simp [jGet, assocSet_lookup_eq]
  rw [h7]
  constructor
  · show (((assocSet dfs "reasoning_content" v).lookup "reasoning").getD J.undefined) = v
    rw [assocSet_lookup_ne dfs "reasoning_content" "reasoning" v (by decide)]
    rw [hreas]
    rfl
  · show (((assocSet dfs "reasoning_content" v).lookup "reasoning_content").getD J.undefined) = v
    rw [assocSet_lookup_eq]
    rfl

/-- Witness for C7 (amended): the documented example `{"reasoning": "x"}`
yields both `reasoning: "x"` and `reasoning_content: "x"`. -/
theorem c7_reasoning_copy_amended_witness :
    jGet (jGet (jIndex (jGet (addReasoning (J.obj [("choices",
        J.arr [J.obj [("delta", J.obj [("reasoning", J.str "x")])]])]))
      "choices") 0) "delta") "reasoning" = J.str "x" ∧
    jGet (jGet (jIndex (jGet (addReasoning (J.obj [("choices",
        J.arr [J.obj [("delta", J.obj [("reasoning", J.str "x")])]])]))
      "choices") 0) "delta") "reasoning_content" = J.str "x" :=
  c7_reasoning_copy_amended
    [("choices", J.arr [J.obj [("delta", J.obj [("reasoning", J.str "x")])]])]
    [("delta", J.obj [("reasoning", J.str "x")])]
    [("reasoning", J.str "x")]
    [] (J.str "x") rfl rfl rfl rfl

/-- C8: for every input stream, each complete line that is blank, equals the
`data: [DONE]` sentinel, lacks the `data: ` marker, or whose payload fails
to JSON-parse, yields no event; a skipped line never removes or reorders
the events of the other lines (decoding continues); and the decoder's
output is exactly the events of its complete lines, in arrival order. -/
theorem c8_stream_skips_malformed_lines (parse : List Char → Option J)
    (line bad : List Char) (pre post : List (List Char))
    (chunks : List (List Char)) :
    (jsTrim line = [] → lineEvent parse line = none) ∧
    (line = "data: [DONE]".data → lineEvent parse line = none) ∧
    ("data: ".data.isPrefixOf line = false → lineEvent parse line = none) ∧
    (parse (line.drop 6) = none → lineEvent parse line = none) ∧
    (lineEvent parse bad = none →
      (pre ++ bad :: post).filterMap (lineEvent parse) =
        (pre ++ post).filterMap (lineEvent parse)) ∧
    (decodeChunks parse chunks).1 =
      (splitLines chunks.flatten).1.filterMap (lineEvent parse) := by
  refine ⟨?_, ?_, ?_, ?_, ?_, ?_⟩
  · intro h
    simp [lineEvent, h]
  · intro h
    simp [lineEvent, h]
  · intro h
    by_cases hb : jsTrim line = [] ∨ line = "data: [DONE]".data
    · simp [lineEvent, hb]
    · simp [lineEvent, hb, h]
  · intro h
    by_cases hb : jsTrim line = [] ∨ line = "data: [DONE]".data
    · simp [lineEvent, hb]
    · by_cases hp : "data: ".data.isPrefixOf line
      · simp [lineEvent, hb, hp, h]
      · simp [lineEvent, hb, hp]
  · intro h
    simp [List.filterMap_append, List.filterMap_cons, h]
  · have h := decode_go parse chunks [] [] (by simp)
    rw [decodeChunks, h]
    simp

/-- Witness for C8: a blank line, the sentinel, an unmarked line and an
unparsable payload each yield nothing, and a malformed line between two
well-formed ones leaves their events untouched. -/
theorem c8_stream_skips_malformed_lines_witness :
    lineEvent (fun l => some (J.str ⟨l⟩)) "  ".data = none ∧
    lineEvent (fun l => some (J.str ⟨l⟩)) "data: [DONE]".data = none ∧
    lineEvent (fun l => some (J.str ⟨l⟩)) "event: ping".data = none ∧
    lineEvent (fun _ => none) "data: zzz".data = none ∧
    ["data: a".data, "oops".data, "data: b".data].filterMap
        (lineEvent (fun l => some (J.str ⟨l⟩))) =
      (["data: a".data] ++ ["data: b".data]).filterMap
        (lineEvent (fun l => some (J.str ⟨l⟩))) := by
  have h1 := c8_stream_skips_malformed_lines (fun l => some (J.str ⟨l⟩))
    "  ".data "oops".data ["data: a".data] ["data: b".data] []
  have h2 := c8_stream_skips_malformed_lines (fun l => some (J.str ⟨l⟩))
    "data: [DONE]".data "oops".data [] [] []
  have h3 := c8_stream_skips_malformed_lines (fun l => some (J.str ⟨l⟩))
    "event: ping".data "oops".data [] [] []
  have h4 := c8_stream_skips_malformed_lines (fun _ => (none : Option J))
    "data: zzz".data "oops".data [] [] []
  refine ⟨h1.1 (by decide), h2.2.1 rfl, h3.2.2.1 (by decide), h4.2.2.2.1 rfl, ?_⟩
  have h5 := h1.2.2.2.2.1 rfl
  simpa using h5

/-- C3, at the failing input: when exactly one of the two catalog fetches
fails (all proxies exhausted), `models.list` does NOT return the surviving
half tagged with its kind — it returns the static fallback catalog, because
the `.catch` substitute (`{data: []}` / `[]`) is a plain value with no
`.json` method, so the unconditional `.json()` call throws a `TypeError`
that the outer `catch` turns into the fallback.  Total failure also yields
the fallback (that part of the claim holds), and a fully successful pair is
merged, kind-tagged and inverse-alias-mapped as claimed. -/
theorem c3_pollinations_models_list_failure_paths :
    pollinationsModelsList .exhausted (.ok (J.arr [J.str "flux"])) =
      pollinationsFallback ∧
    pollinationsModelsList
        (.ok (J.arr [J.obj [("name", J.str "openai"), ("type", J.str "chat")]]))
        .exhausted = pollinationsFallback ∧
    pollinationsModelsList .exhausted .exhausted = pollinationsFallback ∧
    pollinationsModelsList
        (.ok (J.arr [J.obj [("name", J.str "openai"), ("type", J.str "chat")]]))
        (.ok (J.arr [J.str "flux", J.str "turbo"])) =
      [J.obj [("name", J.str "openai"), ("type", J.str "chat"),
        ("id", J.str "gpt-4o-mini")],
       J.obj [("id", J.str "flux"), ("type", J.str "image")],
       J.obj [("id", J.str "sdxl-turbo"), ("type", J.str "image")]] :=
  ⟨rfl, rfl, rfl, rfl⟩

/-- C4: `Together._getModel` — an absent (or empty, hence falsy) name is
replaced by the configured default and resolved like any name; a
single-string alias entry resolves to exactly that string; a sequence-valued
entry resolves to the member at index `⌊r·k⌋` of the `k` equivalents, an
index that is in range for every draw `r ∈ [0,1)`, partitions `[0,1)` into
`k` equal slots (uniform selection), reaches every member, and is computed
afresh from the draw on each call (never cached); an unmapped name is
returned unchanged. -/
theorem c4_together_getModel_alias_resolution
    (r : ℚ) (h0 : 0 ≤ r) (h1 : r < 1) (name d : String) :
    (togetherGetModel r none d = togetherGetModel r (some d) d) ∧
    (∀ a, name ≠ "" → togetherModelAliases.lookup name = some (.one a) → a ≠ "" →
      togetherGetModel r (some name) d = a) ∧
    (∀ l, name ≠ "" → togetherModelAliases.lookup name = some (.many l) → l ≠ [] →
      ∃ hidx : Int.toNat ⌊r * l.length⌋ < l.length,
        togetherGetModel r (some name) d = l.get ⟨Int.toNat ⌊r * l.length⌋, hidx⟩ ∧
          togetherGetModel r (some name) d ∈ l) ∧
    (∀ l i, name ≠ "" → togetherModelAliases.lookup name = some (.many l) →
      ∀ hi : i < l.length,
        togetherGetModel ((i : ℚ) / l.length) (some name) d = l.get ⟨i, hi⟩) ∧
    (name ≠ "" → togetherModelAliases.lookup name = none →
      togetherGetModel r (some name) d = name) ∧
    (∀ l i, name ≠ "" → togetherModelAliases.lookup name = some (.many l) →
      i < l.length →
      (Int.toNat ⌊r * l.length⌋ = i ↔
        (i : ℚ) / l.length ≤ r ∧ r < (i + 1) / l.length)) := by
  refine ⟨?_, ?_, ?_, ?_, ?_, ?_⟩
  · by_cases hd : d = "" <;> simp [togetherGetModel, hd]
  · intro a hname hlook ha
    simp [togetherGetModel, hname, hlook, aliasTruthy, ha]
  · intro l hname hlook hl
    have hk : (0 : ℚ) < l.length := by
      have : 0 < l.length := List.length_pos.mpr hl
      exact_mod_cast this
    have hups : r * l.length < l.length := by
      calc r * (l.length : ℚ) < 1 * l.length := by
            exact mul_lt_mul_of_pos_right h1 hk
        _ = l.length := one_mul _
    have hfl : ⌊r * (l.length : ℚ)⌋ < (l.length : ℤ) := by
      apply Int.floor_lt.mpr
      exact_mod_cast hups
    have hf0 : 0 ≤ ⌊r * (l.length : ℚ)⌋ :=
      Int.floor_nonneg.mpr (mul_nonneg h0 (le_of_lt hk))
    have hidx : Int.toNat ⌊r * (l.length : ℚ)⌋ < l.length := by omega
    have hm : togetherGetModel r (some name) d =
        l.get ⟨Int.toNat ⌊r * (l.length : ℚ)⌋, hidx⟩ := by
      simp only [togetherGetModel, hname, if_false, hlook, aliasTruthy]
      rw [List.getD_eq_getElem?_getD, List.getElem?_eq_getElem hidx]
      simp [List.get_eq_getElem]
    refine ⟨hidx, hm, ?_⟩
    rw [hm]
    exact List.get_mem l _ hidx
  · intro l i hname hlook hi
    have hk : (0 : ℚ) < l.length := by
      have : 0 < l.length := Nat.pos_of_ne_zero (by omega)
      exact_mod_cast this
    have hmul : ((i : ℚ) / l.length) * l.length = (i : ℚ) :=
      div_mul_cancel₀ _ (ne_of_gt hk)
    have hfl : ⌊((i : ℚ) / l.length) * l.length⌋ = (i : ℤ) := by
      rw [hmul]
      exact Int.floor_natCast i
    simp only [togetherGetModel, hname, if_false, hlook, aliasTruthy, hfl]
    rw [List.getD_eq_getElem?_getD]
    rw [show Int.toNat (i : ℤ) = i from rfl]
    rw [List.getElem?_eq_getElem hi]
    simp [List.get_eq_getElem]
  · intro hname hlook
    simp [togetherGetModel, hname, hlook]
  · intro l i hname hlook hi
    have hkn : 0 < l.length := by omega
    have hk : (0 : ℚ) < l.length := by exact_mod_cast hkn
    have hf0 : 0 ≤ ⌊r * (l.length : ℚ)⌋ :=
      Int.floor_nonneg.mpr (mul_nonneg h0 (le_of_lt hk))
    constructor
    · intro he
      have hfe : ⌊r * (l.length : ℚ)⌋ = (i : ℤ) := by omega
      obtain ⟨hl, hr⟩ := Int.floor_eq_iff.mp hfe
      constructor
      · rw [div_le_iff₀ hk]
        exact_mod_cast hl
      · rw [lt_div_iff₀ hk]
        push_cast at hr ⊢
        linarith
    · rintro ⟨hl, hr⟩
      have hfe : ⌊r * (l.length : ℚ)⌋ = (i : ℤ) := by
        apply Int.floor_eq_iff.mpr
        constructor
        · rw [div_le_iff₀ hk] at hl
          exact_mod_cast hl
        · rw [lt_div_iff₀ hk] at hr
          push_cast
          linarith
      omega

/-- Witness for C4: concrete draws on the `flux` sequence alias, the
`llama-3.2-3b` single alias, an unmapped name, and the absent-name default. -/
theorem c4_together_getModel_alias_resolution_witness :
    togetherGetModel (2 / 5) (some "flux") "x" = "black-forest-labs/FLUX.1.1-pro" ∧
    togetherGetModel 0 (some "flux") "x" = "black-forest-labs/FLUX.1-schnell-Free" ∧
    togetherGetModel 0 (some "llama-3.2-3b") "x" =
      "meta-llama/Llama-3.2-3B-Instruct-Turbo" ∧
    togetherGetModel 0 (some "not-in-the-table") "x" = "not-in-the-table" ∧
    togetherGetModel 0 none "x" = "x" := by
  have h := c4_together_getModel_alias_resolution 0 le_rfl (by norm_num) "flux" "x"
  have h2 := c4_together_getModel_alias_resolution 0 le_rfl (by norm_num)
    "llama-3.2-3b" "x"
  have h3 := c4_together_getModel_alias_resolution 0 le_rfl (by norm_num)
    "not-in-the-table" "x"
  have h4 := c4_together_getModel_alias_resolution 0 le_rfl (by norm_num) "x" "x"
  refine ⟨?_, ?_, ?_, ?_, ?_⟩
  · have hmem := h.2.2.2.1 ["black-forest-labs/FLUX.1-schnell-Free",
      "black-forest-labs/FLUX.1-schnell", "black-forest-labs/FLUX.1.1-pro",
      "black-forest-labs/FLUX.1-pro", "black-forest-labs/FLUX.1-dev"] 2
      (by decide) rfl (by norm_num)
    simpa using hmem
  · have hmem := h.2.2.1 ["black-forest-labs/FLUX.1-schnell-Free",
      "black-forest-labs/FLUX.1-schnell", "black-forest-labs/FLUX.1.1-pro",
      "black-forest-labs/FLUX.1-pro", "black-forest-labs/FLUX.1-dev"]
      (by decide) rfl (by simp)
    obtain ⟨hidx, heq, _⟩ := hmem
    rw [heq]
    norm_num
  · exact h2.2.1 "meta-llama/Llama-3.2-3B-Instruct-Turbo" (by decide) rfl (by decide)
  · exact h3.2.2.2.2.1 (by decide) rfl
  · rw [h4.1]
    exact h4.2.2.2.2.1 (by decide) rfl

/-- C5, at the failing input: on a fresh `Together` adapter (empty cache), a
`chat.completions.create` call does NOT load the model catalog — the guard
`!this._cachedModels.length < 1` is inverted, holding exactly when the cache
is non-empty — so even though the upstream catalog carries a non-empty stop
list for the resolved model, no `stop` is injected and the state stays
empty.  Moreover `_loadModels` itself can never populate the cache, because
`this.getApiKey` is undefined and the resulting `TypeError` sends it to the
`catch` that returns the old cache.  The injection logic itself does match
the claim: with a populated config cache and no caller-supplied `stop`, the
cached stop list is injected. -/
theorem c5_together_chat_catalog_load_bug :
    (togetherChatCreate togetherInitState
        (.ok [⟨some "meta-llama/Llama-3.2-3B-Instruct-Turbo",
          some ⟨some ["</s>"], none, none, none⟩, none⟩])
        0 ⟨some "llama-3.2-3b", none⟩).1.stop = none ∧
    (togetherChatCreate togetherInitState
        (.ok [⟨some "meta-llama/Llama-3.2-3B-Instruct-Turbo",
          some ⟨some ["</s>"], none, none, none⟩, none⟩])
        0 ⟨some "llama-3.2-3b", none⟩).1.model =
      some "meta-llama/Llama-3.2-3B-Instruct-Turbo" ∧
    (togetherChatCreate togetherInitState
        (.ok [⟨some "meta-llama/Llama-3.2-3B-Instruct-Turbo",
          some ⟨some ["</s>"], none, none, none⟩, none⟩])
        0 ⟨some "llama-3.2-3b", none⟩).2 = togetherInitState ∧
    togetherChatLoadGuard [] = false ∧
    (∀ m : TModel, togetherChatLoadGuard [m] = true) ∧
    (∀ c, togetherLoadModels togetherInitState c = togetherInitState) ∧
    (togetherChatCreate
        ⟨[⟨some "meta-llama/Llama-3.2-3B-Instruct-Turbo",
            some ⟨some ["</s>"], none, none, none⟩, none⟩],
          [("meta-llama/Llama-3.2-3B-Instruct-Turbo",
            ⟨some ["</s>"], none, none, none, none⟩)]⟩
        (.error ()) 0 ⟨some "llama-3.2-3b", none⟩).1.stop = some ["</s>"] := by
  refine ⟨rfl, rfl, rfl, rfl, ?_, ?_, rfl⟩
  · intro m
    rfl
  · intro c
    rfl

/-- C6 counterexample: for the model id "m" (no alias, no cached mapping),
when the upstream responds without an `inferenceProviderMapping`, the call
fails as a ModelResolutionFailed — but the stored `undefined` is falsy, so
a second identical call fetches the routing map AGAIN: two fetches for one
model id, refuting "fetching it at most once per model id". -/
theorem c6_hf_mapping_refetch_counterexample :
    (hfChatCreate hfInitState (.body none) (some "m")).2.2 = 1 ∧
    (hfChatCreate hfInitState (.body none) (some "m")).1 =
      .error (.modelNotSupported "m") ∧
    (hfChatCreate (hfChatCreate hfInitState (.body none) (some "m")).2.1
      (.body none) (some "m")).2.2 = 1 :=
  ⟨rfl, rfl, rfl⟩

lemma hfChatCreate_passthrough (st : HFState) (fetch : HFFetchRes)
    (pm : Option String) :
    (hfChatCreate st fetch pm).2.2 = (hfGetMapping st fetch (hfResolveAlias pm)).2.2 ∧
    (hfChatCreate st fetch pm).2.1 = (hfGetMapping st fetch (hfResolveAlias pm)).2.1 := by
  rcases hg : hfGetMapping st fetch (hfResolveAlias pm) with ⟨res, st2, n⟩
  simp only [hfChatCreate, hg]
  cases res with
  | error e => simp
  | ok om =>
    cases om with
    | none => simp
    | some mapping =>
      cases mapping with
      | nil => simp
      | cons ke rest =>
        obtain ⟨k, e⟩ := ke
        by_cases ht : e.task != "conversational" <;> simp [ht]

lemma hfGetMapping_count_le (st : HFState) (fetch : HFFetchRes) (model : String) :
    (hfGetMapping st fetch model).2.2 ≤ 1 := by
  cases hl : st.providerMapping.lookup model with
  | none => cases fetch <;> simp [hfGetMapping, hl]
  | some om =>
    cases om with
    | none => cases fetch <;> simp [hfGetMapping, hl]
    | some m => simp [hfGetMapping, hl]

/-- C6 amended: per chat call the routing map is fetched at most once; a
cached mapping is reused with no fetch; a fetch that yields a mapping is
cached for the adapter's lifetime, so a later call for the same model id
does not fetch again; a fetch without a mapping fails with the
ModelResolutionFailed condition ("Model is not supported") but leaves only
a falsy `undefined` in the cache, so the next call for that model id
fetches again; only the first routing entry is consulted: a
non-conversational task fails, and otherwise the endpoint is rewritten to
the provider-specific router path and the request carries the entry's
`providerId` as model. -/
theorem c6_hf_chat_mapping_routing (st : HFState) (fetch fetch2 : HFFetchRes)
    (pm : Option String) (mapping : List (String × PEntry)) (k : String)
    (e : PEntry) (rest : List (String × PEntry)) (st2 : HFState) (n : Nat) :
    ((hfChatCreate st fetch pm).2.2 ≤ 1) ∧
    (st.providerMapping.lookup (hfResolveAlias pm) = some (some mapping) →
      (hfChatCreate st fetch pm).2.2 = 0 ∧ (hfChatCreate st fetch pm).2.1 = st) ∧
    (st.providerMapping.lookup (hfResolveAlias pm) = none →
      fetch = .body (some mapping) →
      (hfChatCreate st fetch pm).2.1.providerMapping.lookup (hfResolveAlias pm) =
          some (some mapping) ∧
        (hfChatCreate (hfChatCreate st fetch pm).2.1 fetch2 pm).2.2 = 0) ∧
    (st.providerMapping.lookup (hfResolveAlias pm) = none →
      fetch = .body none →
      (hfChatCreate st fetch pm).1 =
          .error (.modelNotSupported (hfResolveAlias pm)) ∧
        (hfChatCreate (hfChatCreate st fetch pm).2.1 (.body none) pm).2.2 = 1) ∧
    (hfGetMapping st fetch (hfResolveAlias pm) =
        (.ok (some ((k, e) :: rest)), st2, n) →
      e.task ≠ "conversational" →
      hfChatCreate st fetch pm =
        (.error (.taskMismatch (hfResolveAlias pm) e.task), st2, n)) ∧
    (hfGetMapping st fetch (hfResolveAlias pm) =
        (.ok (some ((k, e) :: rest)), st2, n) →
      e.task = "conversational" →
      hfChatCreate st fetch pm =
        (.ok ("https://router.huggingface.co/" ++ hfRoute k (hfResolveAlias pm) ++
          "/chat/completions", e.providerId), st2, n)) := by
  refine ⟨?_, ?_, ?_, ?_, ?_, ?_⟩
  · rw [(hfChatCreate_passthrough st fetch pm).1]
    exact hfGetMapping_count_le st fetch (hfResolveAlias pm)
  · intro hcache
    have hg : hfGetMapping st fetch (hfResolveAlias pm) = (.ok (some mapping), st, 0) := by
      simp [hfGetMapping, hcache]
    constructor
    · rw [(hfChatCreate_passthrough st fetch pm).1, hg]
    · rw [(hfChatCreate_passthrough st fetch pm).2, hg]
  · intro hcache hfe
    subst hfe
    have hg : hfGetMapping st (.body (some mapping)) (hfResolveAlias pm) =
        (.ok (some mapping), ⟨assocSet st.providerMapping (hfResolveAlias pm)
          (some mapping)⟩, 1) := by
      simp [hfGetMapping, hcache]
    have hst : (hfChatCreate st (.body (some mapping)) pm).2.1 =
        ⟨assocSet st.providerMapping (hfResolveAlias pm) (some mapping)⟩ := by
      rw [(hfChatCreate_passthrough st _ pm).2, hg]
    have hlook : (hfChatCreate st (.body (some mapping)) pm).2.1.providerMapping.lookup
        (hfResolveAlias pm) = some (some mapping) := by
      rw [hst]
      exact assocSet_lookup_eq _ _ _
    refine ⟨hlook, ?_⟩
    rw [(hfChatCreate_passthrough _ fetch2 pm).1]
    simp [hfGetMapping, hlook]
  · intro hcache hfe
    subst hfe
    have hg : hfGetMapping st (.body none) (hfResolveAlias pm) =
        (.ok none, ⟨assocSet st.providerMapping (hfResolveAlias pm) none⟩, 1) := by
      simp [hfGetMapping, hcache]
    constructor
    · simp only [hfChatCreate, hg]
    · have hst : (hfChatCreate st (.body none) pm).2.1 =
          ⟨assocSet st.providerMapping (hfResolveAlias pm) none⟩ := by
        rw [(hfChatCreate_passthrough st _ pm).2, hg]
      rw [(hfChatCreate_passthrough _ (.body none) pm).1]
      rw [hst]
      have hlook : (assocSet st.providerMapping (hfResolveAlias pm) none).lookup
          (hfResolveAlias pm) = some none := assocSet_lookup_eq _ _ _
      simp [hfGetMapping, hlook]
  · intro hg ht
    have hbt : (e.task != "conversational") = true := by
      simpa using ht
    simp only [hfChatCreate, hg, hbt, if_true]
  · intro hg ht
    have hbt : (e.task != "conversational") = false := by
      simpa using ht
    simp only [hfChatCreate, hg, hbt, if_false, Bool.false_eq_true]

/-- Witness for C6 (amended): the statically configured
`google/gemma-3-27b-it` mapping is served from the cache with no fetch and
routes to the provider path with the provider's model id. -/
theorem c6_hf_chat_mapping_routing_witness :
    (hfChatCreate hfInitState (.httpError 500) (some "gemma-3-27b")).2.2 = 0 ∧
    hfChatCreate hfInitState (.httpError 500) (some "gemma-3-27b") =
      (.ok ("https://router.huggingface.co/hf-inference/models/google/gemma-3-27b-it/v1/chat/completions",
        "google/gemma-3-27b-it"), hfInitState, 0) := by
  have h := c6_hf_chat_mapping_routing hfInitState (.httpError 500) (.httpError 500)
    (some "gemma-3-27b")
    [("hf-inference/models/google/gemma-3-27b-it",
      ⟨"conversational", "google/gemma-3-27b-it"⟩)]
    "hf-inference/models/google/gemma-3-27b-it"
    ⟨"conversational", "google/gemma-3-27b-it"⟩ [] hfInitState 0
  have h2 := (h.2.1 rfl).1
  have h6 := h.2.2.2.2.2 rfl rfl
  exact ⟨h2, by rw [h6]; rfl⟩

lemma splitOnChar_no_sep (c : Char) (xs : List Char) (h : c ∉ xs) :
    splitOnChar c xs = [xs] := by
  induction xs with
  | nil => rfl
  | cons d xs' ih =>
    have hd : d ≠ c := fun hdc => h (hdc ▸ List.mem_cons_self d xs')
    have hxs : c ∉ xs' := fun hm => h (List.mem_cons_of_mem d hm)
    simp only [splitOnChar, if_neg hd]
    rw [ih hxs]

lemma splitOnChar_append_sep (c : Char) (xs ys : List Char) (h : c ∉ xs) :
    splitOnChar c (xs ++ c :: ys) = xs :: splitOnChar c ys := by
  induction xs with
  | nil => simp [splitOnChar]
  | cons d xs' ih =>
    have hd : d ≠ c := fun hdc => h (hdc ▸ List.mem_cons_self d xs')
    have hxs : c ∉ xs' := fun hm => h (List.mem_cons_of_mem d hm)
    simp only [List.cons_append, splitOnChar, List.append_eq, if_neg hd]
    rw [ih hxs]

lemma imageParamsBase_lookup_ne (cfg : ClientCfg) (params : List (String × J))
    (k : String) (h1 : k ≠ "prompt") (h2 : k ≠ "nologo") (h3 : k ≠ "referrer") :
    (imageParamsBase cfg params).lookup k = params.lookup k := by
  simp only [imageParamsBase]
  split
  · split
    · split
      · rw [assocSet_lookup_ne _ _ _ _ h3, assocSet_lookup_ne _ _ _ _ h2,
          assocDelete_lookup_ne _ _ _ h1]
      · rw [assocSet_lookup_ne _ _ _ _ h3, assocDelete_lookup_ne _ _ _ h1]
    · split
      · rw [assocSet_lookup_ne _ _ _ _ h2, assocDelete_lookup_ne _ _ _ h1]
      · rw [assocDelete_lookup_ne _ _ _ h1]
  · split
    · rw [assocSet_lookup_ne _ _ _ _ h2, assocDelete_lookup_ne _ _ _ h1]
    · rw [assocDelete_lookup_ne _ _ _ h1]

lemma imageParamsPipeline_of_size (cfg : ClientCfg) (params : List (String × J))
    (W H : String)
    (hsz : params.lookup "size" = some (.str (W ++ "x" ++ H)))
    (hW : 'x' ∉ W.data) (hH : 'x' ∉ H.data) :
    imageParamsPipeline cfg params =
      .ok (assocDelete (assocSet (assocSet (imageParamsBase cfg params)
        "width" (.str W)) "height" (.str H)) "size") := by
  have hs3 : (imageParamsBase cfg params).lookup "size" =
      some (.str (W ++ "x" ++ H)) := by
    rw [imageParamsBase_lookup_ne cfg params "size" (by decide) (by decide) (by decide),
      hsz]
  have hdata : (W ++ "x" ++ H).data = W.data ++ 'x' :: H.data := by
    rw [String.data_append, String.data_append]
    simp
  have hne : (W ++ "x" ++ H) ≠ "" := by
    intro hc
    have h2 : (W ++ "x" ++ H).data = "".data := by rw [hc]
    rw [hdata] at h2
    have hlen := congrArg List.length h2
    simp at hlen
  have htr : jTruthy (J.str (W ++ "x" ++ H)) = true := by
    simp [jTruthy, hne]
  have hsplit : splitOnChar 'x' (W ++ "x" ++ H).data = [W.data, H.data] := by
    rw [hdata, splitOnChar_append_sep 'x' _ _ hW, splitOnChar_no_sep 'x' _ hH]
  simp only [imageParamsPipeline, hs3, Option.getD_some, htr, if_true, hsplit,
    List.getElem?_cons_zero, List.getElem?_cons_succ]

/-- C9: an image-generation call against a template endpoint GETs a URL
built by substituting the percent-encoded prompt (spaces as `+`) into the
path; the `WxH` size parameter is removed and replaced by separate `width`
and `height` query parameters; all other params are folded unchanged into
the query string; the call returns the `{data: [{url}]}` wrapper around the
final response URL; and the template path leaves the caller's params object
untouched (it mutates only its shallow copy). -/
theorem c9_template_image_generation (cfg : ClientCfg)
    (params : List (String × J)) (respUrl pr W H : String)
    (_htmpl : imagesGenerateUsesTemplate cfg = true)
    (hpr : params.lookup "prompt" = some (.str pr)) (hpr0 : pr ≠ "")
    (hsz : params.lookup "size" = some (.str (W ++ "x" ++ H)))
    (hW : 'x' ∉ W.data) (hH : 'x' ∉ H.data) :
    ∃ res, defaultImageGeneration cfg params respUrl = .ok res ∧
      res.queryParams.lookup "size" = none ∧
      res.queryParams.lookup "width" = some (.str W) ∧
      res.queryParams.lookup "height" = some (.str H) ∧
      res.url = (⟨replaceOnce "{prompt}".data
          (replace20 (encodeURIComponentL pr.data)) cfg.imageEndpoint.data⟩ : String)
        ++ "?" ++ formSerialize res.queryParams ∧
      res.result = .obj [("data", .arr [.obj [("url", .str respUrl)]])] ∧
      res.callerParams = params ∧
      (∀ k, k ≠ "prompt" → k ≠ "size" → k ≠ "nologo" → k ≠ "referrer" →
        k ≠ "width" → k ≠ "height" →
        res.queryParams.lookup k = params.lookup k) := by
  have hpipe := imageParamsPipeline_of_size cfg params W H hsz hW hH
  have hprompt : imagePrompt params = replace20 (encodeURIComponentL pr.data) := by
    simp [imagePrompt, hpr, jTruthy, hpr0, jKeyStrS]
  have hgen : defaultImageGeneration cfg params respUrl = .ok
      ⟨params,
        assocDelete (assocSet (assocSet (imageParamsBase cfg params)
          "width" (J.str W)) "height" (J.str H)) "size",
        (⟨replaceOnce "{prompt}".data (imagePrompt params)
            cfg.imageEndpoint.data⟩ : String)
          ++ "?" ++ formSerialize (assocDelete (assocSet (assocSet
            (imageParamsBase cfg params) "width" (J.str W)) "height" (J.str H)) "size"),
        J.obj [("data", J.arr [J.obj [("url", J.str respUrl)]])]⟩ := by
    simp only [defaultImageGeneration, hpipe]
  refine ⟨_, hgen, ?_, ?_, ?_, ?_, rfl, rfl, ?_⟩
  · exact assocDelete_lookup_eq _ _
  · show (assocDelete (assocSet (assocSet (imageParamsBase cfg params)
        "width" (J.str W)) "height" (J.str H)) "size").lookup "width" = some (J.str W)
    rw [assocDelete_lookup_ne _ _ _ (by decide),
      assocSet_lookup_ne _ _ _ _ (by decide), assocSet_lookup_eq]
  · show (assocDelete (assocSet (assocSet (imageParamsBase cfg params)
        "width" (J.str W)) "height" (J.str H)) "size").lookup "height" = some (J.str H)
    rw [assocDelete_lookup_ne _ _ _ (by decide), assocSet_lookup_eq]
  · show (⟨replaceOnce "{prompt}".data (imagePrompt params)
        cfg.imageEndpoint.data⟩ : String) ++ "?" ++ formSerialize _ = _
    rw [hprompt]
  · intro k hk1 hk2 hk3 hk4 hk5 hk6
    show (assocDelete (assocSet (assocSet (imageParamsBase cfg params)
        "width" (J.str W)) "height" (J.str H)) "size").lookup k = params.lookup k
    rw [assocDelete_lookup_ne _ _ _ hk2, assocSet_lookup_ne _ _ _ _ hk6,
      assocSet_lookup_ne _ _ _ _ hk5,
      imageParamsBase_lookup_ne cfg params k hk1 hk3 hk4]

/-- Witness for C9: the documented scenario
`{model: "flux", prompt: "a cat", size: "512x512"}` against the template
endpoint yields `width=512&height=512`, no `size` key, and the prompt
substituted as `a+cat`. -/
theorem c9_template_image_generation_witness :
    ∃ res, defaultImageGeneration
        ⟨none, "flux", [], none, "https://image.pollinations.ai/prompt/{prompt}"⟩
        [("model", J.str "flux"), ("prompt", J.str "a cat"),
         ("size", J.str "512x512")] "https://final/url" = .ok res ∧
      res.queryParams.lookup "size" = none ∧
      res.queryParams.lookup "width" = some (J.str "512") ∧
      res.queryParams.lookup "height" = some (J.str "512") ∧
      res.url =
        "https://image.pollinations.ai/prompt/a+cat?model=flux&nologo=true&width=512&height=512" ∧
      res.result = J.obj [("data", J.arr [J.obj [("url", J.str "https://final/url")]])] ∧
      res.callerParams = [("model", J.str "flux"), ("prompt", J.str "a cat"),
        ("size", J.str "512x512")] := by
  obtain ⟨res, h1, h2, h3, h4, h5, h6, h7, h8⟩ :=
    c9_template_image_generation
      ⟨none, "flux", [], none, "https://image.pollinations.ai/prompt/{prompt}"⟩
      [("model", J.str "flux"), ("prompt", J.str "a cat"),
       ("size", J.str "512x512")]
      "https://final/url" "a cat" "512" "512"
      (by decide) rfl (by decide) rfl (by decide) (by decide)
  have heval : defaultImageGeneration
      ⟨none, "flux", [], none, "https://image.pollinations.ai/prompt/{prompt}"⟩
      [("model", J.str "flux"), ("prompt", J.str "a cat"),
       ("size", J.str "512x512")] "https://final/url" = .ok
      ⟨[("model", J.str "flux"), ("prompt", J.str "a cat"),
        ("size", J.str "512x512")],
       [("model", J.str "flux"), ("nologo", J.bool true),
        ("width", J.str "512"), ("height", J.str "512")],
       "https://image.pollinations.ai/prompt/a+cat?model=flux&nologo=true&width=512&height=512",
       J.obj [("data", J.arr [J.obj [("url", J.str "https://final/url")]])]⟩ := rfl
  have hres : res =
      ⟨[("model", J.str "flux"), ("prompt", J.str "a cat"),
        ("size", J.str "512x512")],
       [("model", J.str "flux"), ("nologo", J.bool true),
        ("width", J.str "512"), ("height", J.str "512")],
       "https://image.pollinations.ai/prompt/a+cat?model=flux&nologo=true&width=512&height=512",
       J.obj [("data", J.arr [J.obj [("url", J.str "https://final/url")]])]⟩ :=
    Except.ok.inj (h1.symm.trans heval)
  exact ⟨res, h1, h2, h3, h4, by rw [hres], h6, h7⟩

/-- C10: `Client.chat.completions.create` mutates the caller's params
object in place: `model` is overwritten with the resolved id, `referrer` is
set exactly when the client is configured with a (truthy) referrer, and no
other field — in particular `messages` — is touched; by contrast
`_defaultImageGeneration` works on a shallow copy, so its caller's params
object comes back unchanged. -/
theorem c10_chat_params_in_place_mutation (cfg : ClientCfg)
    (params : List (String × J)) (respUrl : String) (rr : String) :
    ((clientChatPrepare cfg params).lookup "model" =
      some (clientResolveModel cfg params)) ∧
    (cfg.referrer = some rr → rr ≠ "" →
      (clientChatPrepare cfg params).lookup "referrer" = some (.str rr)) ∧
    (cfg.referrer = none →
      (clientChatPrepare cfg params).lookup "referrer" = params.lookup "referrer") ∧
    (∀ k, k ≠ "model" → k ≠ "referrer" →
      (clientChatPrepare cfg params).lookup k = params.lookup k) ∧
    ((clientChatPrepare cfg params).lookup "messages" = params.lookup "messages") ∧
    (∀ res, defaultImageGeneration cfg params respUrl = .ok res →
      res.callerParams = params) := by
  have hframe : ∀ k, k ≠ "model" → k ≠ "referrer" →
      (clientChatPrepare cfg params).lookup k = params.lookup k := by
    intro k hk1 hk2
    simp only [clientChatPrepare]
    split
    · split
      · rw [assocSet_lookup_ne _ _ _ _ hk2, assocSet_lookup_ne _ _ _ _ hk1]
      · rw [assocSet_lookup_ne _ _ _ _ hk1]
    · rw [assocSet_lookup_ne _ _ _ _ hk1]
  refine ⟨?_, ?_, ?_, hframe, hframe "messages" (by decide) (by decide), ?_⟩
  · simp only [clientChatPrepare]
    split
    · split
      · rw [assocSet_lookup_ne _ _ _ _ (by decide), assocSet_lookup_eq]
      · rw [assocSet_lookup_eq]
    · rw [assocSet_lookup_eq]
  · intro hrr hrr0
    simp only [clientChatPrepare, hrr]
    rw [if_pos (by simpa using hrr0)]
    rw [assocSet_lookup_eq]
  · intro hrr
    simp only [clientChatPrepare, hrr]
    rw [assocSet_lookup_ne _ _ _ _ (by decide)]
  · intro res hres
    rw [defaultImageGeneration] at hres
    rcases hp : imageParamsPipeline cfg params with e | p6
    · rw [hp] at hres
      exact absurd hres (by simp)
    · rw [hp] at hres
      have := Except.ok.inj hres
      rw [← this]

/-- Witness for C10: a configured referrer and a params object with a
`messages` field — `model` is resolved and written, `referrer` is added,
`messages` and the rest are untouched, and the image path's caller object
comes back identical. -/
theorem c10_chat_params_in_place_mutation_witness :
    (clientChatPrepare
        ⟨some "gpt-oss", "flux", [("deepseek-v3", J.str "deepseek")],
          some "https://g4f.dev", "https://image.pollinations.ai/prompt/{prompt}"⟩
        [("model", J.str "deepseek-v3"), ("messages", J.arr [J.str "hi"])]).lookup
      "model" = some (J.str "deepseek") ∧
    (clientChatPrepare
        ⟨some "gpt-oss", "flux", [("deepseek-v3", J.str "deepseek")],
          some "https://g4f.dev", "https://image.pollinations.ai/prompt/{prompt}"⟩
        [("model", J.str "deepseek-v3"), ("messages", J.arr [J.str "hi"])]).lookup
      "referrer" = some (J.str "https://g4f.dev") ∧
    (clientChatPrepare
        ⟨some "gpt-oss", "flux", [("deepseek-v3", J.str "deepseek")],
          some "https://g4f.dev", "https://image.pollinations.ai/prompt/{prompt}"⟩
        [("model", J.str "deepseek-v3"), ("messages", J.arr [J.str "hi"])]).lookup
      "messages" = some (J.arr [J.str "hi"]) := by
  have h := c10_chat_params_in_place_mutation
    ⟨some "gpt-oss", "flux", [("deepseek-v3", J.str "deepseek")],
      some "https://g4f.dev", "https://image.pollinations.ai/prompt/{prompt}"⟩
    [("model", J.str "deepseek-v3"), ("messages", J.arr [J.str "hi"])]
    "https://final/url" "https://g4f.dev"
  refine ⟨?_, ?_, ?_⟩
  · rw [h.1]
    rfl
  · exact h.2.1 rfl (by decide)
  · rw [h.2.2.2.2.1]
    rfl
